import Mathlib

/-!
# Verification of the "let's watch together" room-synchronization server

Shallow embedding of the server core of `server.js` (room store, room state
machine, session registry, broadcast fan-out), together with proofs about the
spec's claims.  JavaScript numbers are modelled as `Int` (the claims do not
depend on floating-point behaviour), JS strings as `String`, the Redis hash
for a room as a record of string fields (`StoredRoom`), and `socket.io`
group membership as an explicit association list.
-/

namespace WatchTogether

/-- Models the JavaScript expression `x || d` on numbers: `0` (and absent,
handled at `Option` level) falls back to the default.  NaN is not modelled. -/
def jsOr (x d : Int) : Int := if x = 0 then d else x

/-- Models `Number(x || d)` where `x : Option Int` stands for a possibly
`undefined` numeric field. -/
def jsOrOpt (x : Option Int) (d : Int) : Int :=
  match x with
  | none => d
  | some v => jsOr v d

/-- Models the JavaScript expression `x || d` on strings: the empty string is
falsy and falls back to the default. -/
def jsOrStr (x d : String) : String := if x = "" then d else x

@[simp] theorem jsOr_zero (x : Int) : jsOr x 0 = x := by
  unfold jsOr; split <;> omega

@[simp] theorem jsOrOpt_zero (x : Option Int) : jsOrOpt x 0 = x.getD 0 := by
  cases x <;> simp [jsOrOpt]

@[simp] theorem jsOrStr_empty (x : String) : jsOrStr x "" = x := by
  unfold jsOrStr; split <;> simp_all

/-! ## Association lists (model of the Redis keyspace / socket registry) -/

/-- Lookup in an association list with string keys. -/
def aget {α : Type} : List (String × α) → String → Option α
  | [], _ => none
  | (k', v) :: t, k => if k' = k then some v else aget t k

/-- Insert-or-replace in an association list with string keys. -/
def aset {α : Type} : List (String × α) → String → α → List (String × α)
  | [], k, v => [(k, v)]
  | (k', v') :: t, k, v => if k' = k then (k, v) :: t else (k', v') :: aset t k v

@[simp] theorem aget_nil {α : Type} (k : String) : aget ([] : List (String × α)) k = none := rfl

@[simp] theorem aget_aset_self {α : Type} (l : List (String × α)) (k : String) (v : α) :
    aget (aset l k v) k = some v := by
  induction l with
  | nil => simp [aget, aset]
  | cons p t ih =>
    obtain ⟨k', v'⟩ := p
    by_cases h : k' = k <;> simp [aget, aset, h, ih]

@[simp] theorem aget_aset_ne {α : Type} (l : List (String × α)) (k k' : String) (v : α)
    (h : k' ≠ k) : aget (aset l k v) k' = aget l k' := by
  induction l with
  | nil => simp [aget, aset, Ne.symm h]
  | cons p t ih =>
    obtain ⟨k₀, v₀⟩ := p
    by_cases h0 : k₀ = k
    · subst h0
      simp [aset, aget, Ne.symm h]
    · simp only [aset, aget, if_neg h0]
      split <;> simp [ih]

theorem aset_aset_self {α : Type} (l : List (String × α)) (k : String) (v w : α) :
    aset (aset l k v) k w = aset l k w := by
  induction l with
  | nil => simp [aset]
  | cons p t ih =>
    obtain ⟨k₀, v₀⟩ := p
    by_cases h0 : k₀ = k <;> simp [aset, h0, ih]

/-! ## Room state and the persisted record

`RoomState` is the parsed in-memory shape produced by `getRoom`;
`StoredRoom` is the string-field Redis hash written by `setRoom`. -/

/-- Parsed room state, as returned by `getRoom` in `server.js`. -/
structure RoomState where
  videoId : String
  time : Int
  playing : Bool
  membersCount : Int
  moderatorId : String
  queue : List String
deriving DecidableEq

/-- The per-room Redis hash: every field is stored as a string
(`hset`/`hgetall` in `server.js`). -/
structure StoredRoom where
  videoId : String
  time : String
  playing : String
  membersCount : String
  moderatorId : String
  queue : String
deriving DecidableEq

/-! ### Decimal printing and parsing (model of JS `String(n)` / `Number(s)`) -/

/-- Little-endian decimal digits, with structural fuel (`fuel ≥ n`
suffices). -/
def natDigitsRevAux : Nat → Nat → List Nat
  | _, 0 => []
  | 0, _ + 1 => []
  | f + 1, n + 1 => (n + 1) % 10 :: natDigitsRevAux f ((n + 1) / 10)

/-- Little-endian decimal digits of a natural number (`[]` for `0`). -/
def natDigitsRev (n : Nat) : List Nat := natDigitsRevAux n n

/-- Value of a little-endian digit list. -/
def digitsVal : List Nat → Nat
  | [] => 0
  | d :: ds => d + 10 * digitsVal ds

/-- The ASCII character of a decimal digit. -/
def digitChar (d : Nat) : Char := Char.ofNat (48 + d)

/-- Decimal representation of a natural number; models JS `String(n)` for
non-negative integers. -/
def natStr (n : Nat) : String :=
  if n = 0 then "0" else String.mk ((natDigitsRev n).reverse.map digitChar)

/-- Decimal representation of an integer; models JS `String(n)`. -/
def intToStr (i : Int) : String :=
  if i < 0 then "-" ++ natStr i.natAbs else natStr i.toNat

/-- Big-endian decimal parse of a digit-character list. -/
def parseNatChars (cs : List Char) : Nat :=
  cs.foldl (fun a c => 10 * a + (c.toNat - 48)) 0

/-- Integer parse of a decimal string; models JS `Number(s)` on the strings
produced by `intToStr` (NaN on garbage input is not modelled). -/
def strToInt (s : String) : Int :=
  match s.data with
  | [] => 0
  | c :: t => if c = '-' then -(parseNatChars t : Int) else (parseNatChars (c :: t) : Int)

theorem natDigitsRevAux_val (f : Nat) : ∀ n, n ≤ f → digitsVal (natDigitsRevAux f n) = n := by
  induction f with
  | zero =>
    intro n hn
    have h0 : n = 0 := by omega
    subst h0
    rfl
  | succ f ih =>
    intro n hn
    cases n with
    | zero => rfl
    | succ m =>
      have hdiv : (m + 1) / 10 ≤ f := by
        have := Nat.div_lt_self (Nat.succ_pos m) (show 1 < 10 by omega)
        omega
      rw [natDigitsRevAux, digitsVal, ih _ hdiv]
      omega

theorem digitsVal_natDigitsRev (n : Nat) : digitsVal (natDigitsRev n) = n :=
  natDigitsRevAux_val n n (Nat.le_refl n)

theorem natDigitsRevAux_lt (f : Nat) : ∀ n, ∀ d ∈ natDigitsRevAux f n, d < 10 := by
  induction f with
  | zero =>
    intro n d hd
    cases n <;> simp [natDigitsRevAux] at hd
  | succ f ih =>
    intro n d hd
    cases n with
    | zero => simp [natDigitsRevAux] at hd
    | succ m =>
      rw [natDigitsRevAux] at hd
      rcases List.mem_cons.mp hd with h | h
      · subst h; exact Nat.mod_lt _ (by omega)
      · exact ih _ d h

theorem natDigitsRev_lt (n : Nat) : ∀ d ∈ natDigitsRev n, d < 10 :=
  natDigitsRevAux_lt n n

theorem toNat_digitChar (d : Nat) (h : d < 10) : (digitChar d).toNat = 48 + d := by
  have hv : (48 + d).isValidChar := Or.inl (by omega)
  simp [digitChar, Char.ofNat, hv, Char.ofNatAux, Char.toNat, UInt32.toNat]

theorem digitChar_ne_minus (d : Nat) (h : d < 10) : digitChar d ≠ '-' := by
  intro he
  have h1 := toNat_digitChar d h
  rw [he] at h1
  have h2 : ('-').toNat = 45 := by decide
  rw [h2] at h1
  omega

theorem parseNatChars_digits (l : List Nat) (h : ∀ d ∈ l, d < 10) :
    parseNatChars ((l.reverse).map digitChar) = digitsVal l := by
  induction l with
  | nil => simp [parseNatChars, digitsVal]
  | cons d ds ih =>
    have hd : d < 10 := h d (List.mem_cons_self _ _)
    have hds : ∀ x ∈ ds, x < 10 := fun x hx => h x (List.mem_cons_of_mem _ hx)
    simp only [List.reverse_cons, List.map_append, List.map_cons, List.map_nil]
    unfold parseNatChars at *
    rw [List.foldl_append]
    rw [ih hds]
    simp [digitsVal, toNat_digitChar d hd]
    omega

theorem parseNatChars_natStr (n : Nat) : parseNatChars (natStr n).data = n := by
  by_cases h0 : n = 0
  · subst h0
    have : parseNatChars ['0'] = 0 := by decide
    simpa [natStr] using this
  · rw [natStr, if_neg h0]
    show parseNatChars ((natDigitsRev n).reverse.map digitChar) = n
    rw [parseNatChars_digits _ (natDigitsRev_lt n), digitsVal_natDigitsRev]

theorem natStr_head_digit (n : Nat) :
    ∃ d t, d < 10 ∧ (natStr n).data = digitChar d :: t := by
  by_cases h0 : n = 0
  · subst h0
    refine ⟨0, [], by omega, ?_⟩
    rfl
  · rw [natStr, if_neg h0]
    have hne : natDigitsRev n ≠ [] := by
      cases hn : natDigitsRev n with
      | nil =>
        have := digitsVal_natDigitsRev n
        rw [hn] at this
        simp [digitsVal] at this
        omega
      | cons a l => simp
    have hne2 : (natDigitsRev n).reverse ≠ [] := by
      simpa using hne
    cases hr : (natDigitsRev n).reverse with
    | nil => exact absurd hr hne2
    | cons a l =>
      refine ⟨a, l.map digitChar, ?_, by simp [hr]⟩
      have ha : a ∈ natDigitsRev n := by
        have : a ∈ (natDigitsRev n).reverse := by rw [hr]; exact List.mem_cons_self _ _
        simpa using this
      exact natDigitsRev_lt n a ha

theorem strToInt_intToStr (i : Int) : strToInt (intToStr i) = i := by
  by_cases hneg : i < 0
  · rw [intToStr, if_pos hneg]
    have hdata : ("-" ++ natStr i.natAbs).data = '-' :: (natStr i.natAbs).data := by
      rw [String.data_append]
      rfl
    rw [strToInt, hdata]
    show (if ('-' : Char) = '-' then -(parseNatChars (natStr i.natAbs).data : Int)
          else (parseNatChars ('-' :: (natStr i.natAbs).data) : Int)) = i
    rw [if_pos rfl, parseNatChars_natStr]
    omega
  · rw [intToStr, if_neg hneg]
    obtain ⟨d, t, hd, hdt⟩ := natStr_head_digit i.toNat
    rw [strToInt, hdt]
    show (if digitChar d = '-' then -(parseNatChars t : Int)
          else (parseNatChars (digitChar d :: t) : Int)) = i
    rw [if_neg (digitChar_ne_minus d hd), ← hdt, parseNatChars_natStr]
    omega

/-! ### Queue encoding: model of `JSON.stringify` / `JSON.parse` on string arrays

`JSON.stringify` on an array of strings emits `["a","b",...]`, escaping
`"` and `\` with a backslash (the `\uXXXX` escapes for control characters do
not matter for the round trip and are not modelled). -/

/-- Escape `"` and `\` in a character list. -/
def escapeList : List Char → List Char
  | [] => []
  | c :: t => if c = '"' ∨ c = '\\' then '\\' :: c :: escapeList t else c :: escapeList t

/-- Parse the body of a JSON string up to and including the closing quote,
returning the decoded content and the remaining input. -/
def parseStrBody : List Char → Option (List Char × List Char)
  | [] => none
  | c :: t =>
    if c = '"' then some ([], t)
    else if c = '\\' then
      match t with
      | [] => none
      | c2 :: t2 => (parseStrBody t2).map (fun p => (c2 :: p.1, p.2))
    else (parseStrBody t).map (fun p => (c :: p.1, p.2))

/-- Parse the elements of a JSON string array after the opening `[`,
with explicit fuel. -/
def parseElems : Nat → List Char → Option (List String)
  | _, [] => none
  | fuel, c :: t =>
    if c = ']' then some []
    else if c = '"' then
      match fuel with
      | 0 => none
      | f + 1 =>
        match parseStrBody t with
        | none => none
        | some (b, r) =>
          match r with
          | [] => none
          | c2 :: r2 =>
            if c2 = ',' then (parseElems f r2).map (fun es => String.mk b :: es)
            else if c2 = ']' then some [String.mk b]
            else none
    else none

/-- One encoded array element, quotes included. -/
def encElem (x : String) : List Char := '"' :: (escapeList x.data ++ ['"'])

/-- The encoded elements of a JSON string array, closing `]` included. -/
def encTail : List String → List Char
  | [] => [']']
  | [x] => encElem x ++ [']']
  | x :: xs => encElem x ++ (',' :: encTail xs)

/-- Model of `JSON.stringify(queue)` for a string array. -/
def encodeQueue (q : List String) : String := String.mk ('[' :: encTail q)

/-- Model of `JSON.parse(s)` restricted to string arrays (the only shape this
program ever stores); unparseable input decodes to `[]`. -/
def decodeQueue (s : String) : List String :=
  match s.data with
  | '[' :: t => (parseElems t.length t).getD []
  | _ => []

theorem parseStrBody_cons (c : Char) (t : List Char) :
    parseStrBody (c :: t) =
      if c = '"' then some ([], t)
      else if c = '\\' then
        match t with
        | [] => none
        | c2 :: t2 => (parseStrBody t2).map (fun p => (c2 :: p.1, p.2))
      else (parseStrBody t).map (fun p => (c :: p.1, p.2)) := by
  rw [parseStrBody.eq_def]

theorem parseElems_cons (fuel : Nat) (c : Char) (t : List Char) :
    parseElems fuel (c :: t) =
      if c = ']' then some []
      else if c = '"' then
        match fuel with
        | 0 => none
        | f + 1 =>
          match parseStrBody t with
          | none => none
          | some (b, r) =>
            match r with
            | [] => none
            | c2 :: r2 =>
              if c2 = ',' then (parseElems f r2).map (fun es => String.mk b :: es)
              else if c2 = ']' then some [String.mk b]
              else none
      else none := by
  rw [parseElems.eq_def]

theorem parseStrBody_escape (l r : List Char) :
    parseStrBody (escapeList l ++ ('"' :: r)) = some (l, r) := by
  induction l with
  | nil =>
    show parseStrBody ('"' :: r) = some ([], r)
    rw [parseStrBody_cons, if_pos rfl]
  | cons c t ih =>
    by_cases hc : c = '"' ∨ c = '\\'
    · rw [escapeList, if_pos hc]
      have hbs : ('\\' : Char) ≠ '"' := by decide
      show parseStrBody ('\\' :: c :: (escapeList t ++ ('"' :: r))) = some (c :: t, r)
      rw [parseStrBody_cons, if_neg hbs, if_pos rfl]
      show (parseStrBody (escapeList t ++ ('"' :: r))).map (fun p => (c :: p.1, p.2)) =
        some (c :: t, r)
      rw [ih]
      rfl
    · push_neg at hc
      rw [escapeList, if_neg (by tauto)]
      show parseStrBody (c :: (escapeList t ++ ('"' :: r))) = some (c :: t, r)
      rw [parseStrBody_cons, if_neg hc.1, if_neg hc.2, ih]
      rfl

theorem parseElems_quote (f : Nat) (t : List Char) :
    parseElems (f + 1) ('"' :: t) =
      match parseStrBody t with
      | none => none
      | some (b, r) =>
        match r with
        | [] => none
        | c2 :: r2 =>
          if c2 = ',' then (parseElems f r2).map (fun es => String.mk b :: es)
          else if c2 = ']' then some [String.mk b]
          else none := by
  have h1 : ('"' : Char) ≠ ']' := by decide
  rw [parseElems_cons, if_neg h1, if_pos rfl]

theorem parseElems_encTail (q : List String) :
    ∀ fuel, q.length ≤ fuel → parseElems fuel (encTail q) = some q := by
  induction q with
  | nil =>
    intro fuel _
    rw [encTail]
    cases fuel with
    | zero => rfl
    | succ f => rfl
  | cons x xs ih =>
    intro fuel hf
    cases xs with
    | nil =>
      cases fuel with
      | zero => simp at hf
      | succ f =>
        have harr : encTail [x] = '"' :: (escapeList x.data ++ ('"' :: [']'])) := by
          show encElem x ++ [']'] = _
          simp [encElem]
        rw [harr, parseElems_quote, parseStrBody_escape]
        show (if (']' : Char) = ',' then
                (parseElems f []).map (fun es => String.mk x.data :: es)
              else if (']' : Char) = ']' then some [String.mk x.data]
              else none) = some [x]
        rw [if_neg (by decide), if_pos rfl]
    | cons y ys =>
      cases fuel with
      | zero => simp at hf
      | succ f =>
        have hf2 : (y :: ys).length ≤ f := by simpa using hf
        have harr : encTail (x :: y :: ys) =
            '"' :: (escapeList x.data ++ ('"' :: (',' :: encTail (y :: ys)))) := by
          show encElem x ++ (',' :: encTail (y :: ys)) = _
          simp [encElem]
        rw [harr, parseElems_quote, parseStrBody_escape]
        show (if (',' : Char) = ',' then
                (parseElems f (encTail (y :: ys))).map (fun es => String.mk x.data :: es)
              else if (',' : Char) = ']' then some [String.mk x.data]
              else none) = some (x :: y :: ys)
        rw [if_pos rfl, ih f hf2]
        rfl

theorem length_encTail (q : List String) : q.length ≤ (encTail q).length := by
  induction q with
  | nil => simp [encTail]
  | cons x xs ih =>
    cases xs with
    | nil => simp [encTail, encElem]
    | cons y ys =>
      show (x :: y :: ys).length ≤ (encElem x ++ (',' :: encTail (y :: ys))).length
      simp only [List.length_append, List.length_cons]
      simp only [List.length_cons] at ih
      omega

theorem decodeQueue_encodeQueue (q : List String) : decodeQueue (encodeQueue q) = q := by
  show decodeQueue ⟨'[' :: encTail q⟩ = q
  rw [decodeQueue]
  show (parseElems (encTail q).length (encTail q)).getD [] = q
  rw [parseElems_encTail q _ (length_encTail q)]
  rfl

/-! ### The room store (`getRoom` / `setRoom` in `server.js`)

The payload written by `setRoom` and the parse done by `getRoom` are
translated field by field.  The 24-hour `expire`/`persist` retention calls in
`setRoom` are wall-clock behaviour of the external store and are not part of
the state model. -/

/-- The string payload `setRoom` writes: mirrors the `payload` object built in
`server.js`, using the JS coercions `state.videoId || ''`, `String(state.time
|| 0)`, `state.playing ? 'true' : 'false'`, `String(state.membersCount || 0)`,
`state.moderatorId || ''`, `JSON.stringify(state.queue || [])`. -/
def encodeRoom (state : RoomState) : StoredRoom where
  videoId := jsOrStr state.videoId ""
  time := intToStr (jsOr state.time 0)
  playing := if state.playing then "true" else "false"
  membersCount := intToStr (jsOr state.membersCount 0)
  moderatorId := jsOrStr state.moderatorId ""
  queue := encodeQueue state.queue

/-- The parse `getRoom` performs on a stored hash: mirrors `data.videoId ||
''`, `Number(data.time || 0)`, `data.playing === 'true'`, `Number(
data.membersCount || 0)`, `data.moderatorId || ''`, `JSON.parse(data.queue)`
(with the `data.queue ? ... : []` fallback). -/
def decodeRoom (data : StoredRoom) : RoomState where
  videoId := jsOrStr data.videoId ""
  time := if data.time = "" then 0 else strToInt data.time
  playing := data.playing = "true"
  membersCount := if data.membersCount = "" then 0 else strToInt data.membersCount
  moderatorId := jsOrStr data.moderatorId ""
  queue := if data.queue = "" then [] else decodeQueue data.queue

/-- `setRoom(roomId, state)`: write the encoded record under the room key. -/
def setRoom (store : List (String × StoredRoom)) (roomId : String) (state : RoomState) :
    List (String × StoredRoom) :=
  aset store roomId (encodeRoom state)

/-- `getRoom(roomId)`: `null` when the key is absent, otherwise the parsed
record. -/
def getRoom (store : List (String × StoredRoom)) (roomId : String) : Option RoomState :=
  (aget store roomId).map decodeRoom

theorem intToStr_ne_empty (i : Int) : intToStr i ≠ "" := by
  intro h
  have hd := congrArg String.data h
  by_cases hneg : i < 0
  · rw [intToStr, if_pos hneg, String.data_append] at hd
    simp at hd
  · rw [intToStr, if_neg hneg] at hd
    obtain ⟨d, t, _, hdt⟩ := natStr_head_digit i.toNat
    rw [hdt] at hd
    simp at hd

theorem encodeQueue_ne_empty (q : List String) : encodeQueue q ≠ "" := by
  intro h
  have hd : ('[' :: encTail q) = ([] : List Char) := congrArg String.data h
  simp at hd

/-- The field-level encoding round-trips: decoding what `setRoom` stores
recovers the original state. -/
theorem decodeRoom_encodeRoom (state : RoomState) : decodeRoom (encodeRoom state) = state := by
  obtain ⟨v, t, p, m, mo, q⟩ := state
  show RoomState.mk _ _ _ _ _ _ = RoomState.mk v t p m mo q
  simp only [decodeRoom, encodeRoom, jsOrStr_empty, jsOr_zero,
    if_neg (intToStr_ne_empty t), if_neg (intToStr_ne_empty m),
    if_neg (encodeQueue_ne_empty q), strToInt_intToStr, decodeQueue_encodeQueue]
  cases p <;> simp

theorem getRoom_setRoom_self (store : List (String × StoredRoom)) (roomId : String)
    (state : RoomState) : getRoom (setRoom store roomId state) roomId = some state := by
  rw [getRoom, setRoom, aget_aset_self]
  simp [decodeRoom_encodeRoom]

theorem getRoom_setRoom_ne (store : List (String × StoredRoom)) (roomId r : String)
    (state : RoomState) (h : r ≠ roomId) :
    getRoom (setRoom store roomId state) r = getRoom store r := by
  rw [getRoom, setRoom, aget_aset_ne _ _ _ _ h, getRoom]

/-! ## Sessions, groups, and the event protocol -/

/-- Per-connection data (`socket.data` in `server.js`): display name and the
room the connection is bound to (`undefined` before any `join-room`). -/
structure SocketData where
  name : Option String
  roomId : Option String
deriving DecidableEq

/-- The audience of an outbound message: `io.to(room)`, `socket.to(room)`
(room minus sender), or `socket.emit` (sender only). -/
inductive Audience where
  | room (roomId : String)
  | exceptSender (roomId : String) (sender : String)
  | toSocket (sid : String)
deriving DecidableEq

/-- Outbound message payloads of the server. -/
inductive Payload where
  | usersMsg (count : Int)
  | roomStateMsg (videoId : Option String) (time : Int) (playing : Bool)
      (moderatorId : Option String) (queue : List String)
  | loadVideoMsg (videoId : String)
  | playMsg (time : Int)
  | pauseMsg (time : Int)
  | seekMsg (time : Int)
  | chatMsg (name : String) (text : String)
  | errorMsg (message : String)
deriving DecidableEq

abbrev Msg := Audience × Payload

/-- The whole server state: connected sockets with their `socket.data`, the
Redis room store, and socket.io group membership per room id. -/
structure SystemState where
  sockets : List (String × SocketData)
  rooms : List (String × StoredRoom)
  groups : List (String × List String)
deriving DecidableEq

/-- Remove a key from an association list (socket destruction). -/
def aremove {α : Type} (l : List (String × α)) (k : String) : List (String × α) :=
  l.filter (fun p => p.1 != k)

@[simp] theorem aget_aremove_self {α : Type} (l : List (String × α)) (k : String) :
    aget (aremove l k) k = none := by
  induction l with
  | nil => rfl
  | cons p t ih =>
    obtain ⟨k₀, v₀⟩ := p
    by_cases h0 : k₀ = k
    · simpa [aremove, h0] using ih
    · simpa [aremove, aget, h0] using ih

@[simp] theorem aget_aremove_ne {α : Type} (l : List (String × α)) (k k' : String)
    (h : k' ≠ k) : aget (aremove l k) k' = aget l k' := by
  induction l with
  | nil => rfl
  | cons p t ih =>
    obtain ⟨k₀, v₀⟩ := p
    by_cases h0 : k₀ = k
    · subst h0
      simpa [aremove, aget, Ne.symm h] using ih
    · by_cases h1 : k₀ = k'
      · subst h1
        simp [aremove, aget, h0]
      · simpa [aremove, aget, h0, h1] using ih

/-- The members of a socket.io room (empty when the room has no group). -/
def getGroup (groups : List (String × List String)) (r : String) : List String :=
  (aget groups r).getD []

/-- `socket.join(roomId)`: add the socket to the room's set. -/
def joinGroup (groups : List (String × List String)) (r sid : String) :
    List (String × List String) :=
  let g := getGroup groups r
  aset groups r (if sid ∈ g then g else g ++ [sid])

/-- Removal of a closed socket from every room group. -/
def leaveAllGroups (groups : List (String × List String)) (sid : String) :
    List (String × List String) :=
  groups.map (fun p => (p.1, p.2.erase sid))

@[simp] theorem getGroup_joinGroup_self (groups : List (String × List String)) (r sid : String) :
    getGroup (joinGroup groups r sid) r =
      (if sid ∈ getGroup groups r then getGroup groups r else getGroup groups r ++ [sid]) := by
  rw [joinGroup, getGroup, aget_aset_self]
  rfl

@[simp] theorem getGroup_joinGroup_ne (groups : List (String × List String)) (r r' sid : String)
    (h : r' ≠ r) : getGroup (joinGroup groups r sid) r' = getGroup groups r' := by
  rw [joinGroup, getGroup, aget_aset_ne _ _ _ _ h, getGroup]

@[simp] theorem getGroup_leaveAllGroups (groups : List (String × List String)) (sid r : String) :
    getGroup (leaveAllGroups groups sid) r = (getGroup groups r).erase sid := by
  induction groups with
  | nil => rfl
  | cons p t ih =>
    obtain ⟨k₀, g₀⟩ := p
    by_cases h0 : k₀ = r
    · simp [leaveAllGroups, getGroup, aget, h0]
    · simpa [leaveAllGroups, getGroup, aget, h0] using ih

/-! ## The event handlers of `io.on('connection')` -/

/-- `isValidYouTubeId`: exactly 11 characters from `[a-zA-Z0-9_-]`. -/
def isValidYouTubeId (id : String) : Bool :=
  id.length = 11 && id.data.all (fun c => c.isAlphanum || c == '_' || c == '-')

/-- The initial record `ensureRoomExists` creates for a fresh room. -/
def initialRoom (creator : String) : RoomState where
  videoId := ""
  time := 0
  playing := false
  membersCount := 0
  moderatorId := creator
  queue := []

/-- Models the randomly generated default display name
(`` `User${Math.floor(Math.random() * 9000) + 1000}` ``); the claims never
depend on its value, so the model fixes one. -/
def defaultName : String := "User1000"

/-- The `room-state` snapshot sent to a single socket (join and
`request-sync`). -/
def snapshotMsg (sid : String) (room : RoomState) : Msg :=
  (Audience.toSocket sid,
   Payload.roomStateMsg (if room.videoId = "" then none else some room.videoId)
     (jsOr room.time 0) room.playing
     (if room.moderatorId = "" then none else some room.moderatorId)
     room.queue)

/-- `socket.data.roomId` of a connection: the room the socket is bound to,
`none` when the socket is unknown or not yet joined. -/
def boundRoom (s : SystemState) (sid : String) : Option String :=
  (aget s.sockets sid).bind SocketData.roomId

/-- `socket.on('connect')` at the server: a fresh socket with empty
`socket.data`.  Transport-assigned ids are unique, so a second connect with a
live id cannot happen and is a no-op. -/
def handleConnect (s : SystemState) (sid : String) : SystemState × List Msg :=
  match aget s.sockets sid with
  | some _ => (s, [])
  | none => ({ s with sockets := aset s.sockets sid { name := none, roomId := none } }, [])

/-- `socket.on('join-room')`. -/
def handleJoinRoom (s : SystemState) (sid roomId name : String) : SystemState × List Msg :=
  if roomId = "" then
    (s, [(Audience.toSocket sid, Payload.errorMsg "roomId required")])
  else
    let groups1 := joinGroup s.groups roomId sid
    let sockets1 :=
      aset s.sockets sid { name := some (jsOrStr name defaultName), roomId := some roomId }
    let rooms0 :=
      match getRoom s.rooms roomId with
      | some _ => s.rooms
      | none => setRoom s.rooms roomId (initialRoom sid)
    let room0 := (getRoom s.rooms roomId).getD (initialRoom sid)
    let room1 := { room0 with membersCount := jsOr room0.membersCount 0 + 1 }
    let room2 := if room1.moderatorId = "" then { room1 with moderatorId := sid } else room1
    ({ sockets := sockets1, rooms := setRoom rooms0 roomId room2, groups := groups1 },
     [(Audience.room roomId, Payload.usersMsg room2.membersCount), snapshotMsg sid room2])

/-- `socket.on('load-video')`. -/
def handleLoadVideo (s : SystemState) (sid videoId : String) : SystemState × List Msg :=
  match boundRoom s sid with
  | none => (s, [])
  | some roomId =>
    match getRoom s.rooms roomId with
    | none => (s, [])
    | some room =>
      if room.moderatorId ≠ "" ∧ sid ≠ room.moderatorId then
        (s, [(Audience.toSocket sid, Payload.errorMsg "Only moderator can load video")])
      else if isValidYouTubeId videoId = false then
        (s, [(Audience.toSocket sid, Payload.errorMsg "Invalid YouTube id")])
      else
        let room1 := { room with videoId := videoId, time := 0, playing := false }
        ({ s with rooms := setRoom s.rooms roomId room1 },
         [(Audience.room roomId, Payload.loadVideoMsg videoId)])

/-- `socket.on('play')`. -/
def handlePlay (s : SystemState) (sid : String) (time : Option Int) : SystemState × List Msg :=
  match boundRoom s sid with
  | none => (s, [])
  | some roomId =>
    match getRoom s.rooms roomId with
    | none => (s, [])
    | some room =>
      let t := jsOrOpt time 0
      let room1 := { room with time := t, playing := true }
      ({ s with rooms := setRoom s.rooms roomId room1 },
       [(Audience.exceptSender roomId sid, Payload.playMsg t)])

/-- `socket.on('pause')`. -/
def handlePause (s : SystemState) (sid : String) (time : Option Int) : SystemState × List Msg :=
  match boundRoom s sid with
  | none => (s, [])
  | some roomId =>
    match getRoom s.rooms roomId with
    | none => (s, [])
    | some room =>
      let t := jsOrOpt time 0
      let room1 := { room with time := t, playing := false }
      ({ s with rooms := setRoom s.rooms roomId room1 },
       [(Audience.exceptSender roomId sid, Payload.pauseMsg t)])

/-- `socket.on('seek')`: position set, `playing` untouched. -/
def handleSeek (s : SystemState) (sid : String) (time : Option Int) : SystemState × List Msg :=
  match boundRoom s sid with
  | none => (s, [])
  | some roomId =>
    match getRoom s.rooms roomId with
    | none => (s, [])
    | some room =>
      let t := jsOrOpt time 0
      let room1 := { room with time := t }
      ({ s with rooms := setRoom s.rooms roomId room1 },
       [(Audience.exceptSender roomId sid, Payload.seekMsg t)])

/-- `socket.on('chat')`: `if (!roomId || !text) return;` — empty text is
dropped silently; otherwise a room-wide broadcast, no state change. -/
def handleChat (s : SystemState) (sid text : String) : SystemState × List Msg :=
  match boundRoom s sid with
  | none => (s, [])
  | some roomId =>
    if text = "" then (s, [])
    else
      let name :=
        match (aget s.sockets sid).bind SocketData.name with
        | none => "Anon"
        | some n => jsOrStr n "Anon"
      (s, [(Audience.room roomId, Payload.chatMsg name text)])

/-- `socket.on('request-sync')`. -/
def handleRequestSync (s : SystemState) (sid : String) : SystemState × List Msg :=
  match boundRoom s sid with
  | none => (s, [])
  | some roomId =>
    match getRoom s.rooms roomId with
    | none => (s, [])
    | some room => (s, [snapshotMsg sid room])

/-- `socket.on('disconnect')`.  socket.io removes a closed socket from every
room before the handler runs, so `fetchSockets` never sees the departed
socket; `sockets[0].id` is the first remaining member of the group. -/
def handleDisconnect (s : SystemState) (sid : String) : SystemState × List Msg :=
  let groups1 := leaveAllGroups s.groups sid
  let sockets1 := aremove s.sockets sid
  match boundRoom s sid with
  | none => ({ sockets := sockets1, rooms := s.rooms, groups := groups1 }, [])
  | some roomId =>
    match getRoom s.rooms roomId with
    | none => ({ sockets := sockets1, rooms := s.rooms, groups := groups1 }, [])
    | some room =>
      let c1 := max 0 (jsOr room.membersCount 1 - 1)
      let mod1 :=
        if room.moderatorId = sid then
          match getGroup groups1 roomId with
          | [] => ""
          | x :: _ => x
        else room.moderatorId
      let room1 := { room with membersCount := c1, moderatorId := mod1 }
      ({ sockets := sockets1, rooms := setRoom s.rooms roomId room1, groups := groups1 },
       if c1 = 0 then [] else [(Audience.room roomId, Payload.usersMsg c1)])

/-- The in-scope inbound events, tagged with the source connection. -/
inductive Op where
  | connect (sid : String)
  | joinRoom (sid roomId name : String)
  | loadVideo (sid videoId : String)
  | play (sid : String) (time : Option Int)
  | pause (sid : String) (time : Option Int)
  | seek (sid : String) (time : Option Int)
  | chat (sid text : String)
  | requestSync (sid : String)
  | disconnect (sid : String)
deriving DecidableEq

/-- The event dispatcher: one inbound event to (new state, outbound
messages). -/
def step (s : SystemState) : Op → SystemState × List Msg
  | .connect sid => handleConnect s sid
  | .joinRoom sid roomId name => handleJoinRoom s sid roomId name
  | .loadVideo sid videoId => handleLoadVideo s sid videoId
  | .play sid time => handlePlay s sid time
  | .pause sid time => handlePause s sid time
  | .seek sid time => handleSeek s sid time
  | .chat sid text => handleChat s sid text
  | .requestSync sid => handleRequestSync s sid
  | .disconnect sid => handleDisconnect s sid

/-- The state component of `step`. -/
def applyOp (s : SystemState) (op : Op) : SystemState := (step s op).1

/-- The empty server. -/
def initState : SystemState where
  sockets := []
  rooms := []
  groups := []

/-- Run a sequence of operations from the empty server. -/
def runOps (ops : List Op) : SystemState := ops.foldl applyOp initState

/-- Transport-respecting side conditions: socket ids are nonempty and unique
(guaranteed by socket.io), and — the condition the first-bind-wins session
registry of the spec imposes — `join-room` only ever comes from a connected
socket that is not yet bound to a room. -/
def validOp (s : SystemState) : Op → Bool
  | .connect sid => sid != ""
  | .joinRoom sid _ _ =>
    match aget s.sockets sid with
    | some d => d.roomId.isNone
    | none => false
  | _ => true

/-- States reachable when every `join-room` is a first bind
(no rebinding), from the empty server. -/
inductive ReachNR : SystemState → Prop where
  | init : ReachNR initState
  | step (s : SystemState) (op : Op) (hs : ReachNR s) (hv : validOp s op = true) :
      ReachNR (applyOp s op)

/-! ## Unfolding lemmas for the handlers -/

theorem boundRoom_eq (s : SystemState) (sid : String) (d : SocketData) (r : String)
    (hd : aget s.sockets sid = some d) (hb : d.roomId = some r) :
    boundRoom s sid = some r := by
  rw [boundRoom, hd]
  exact hb

theorem handleLoadVideo_eq (s : SystemState) (sid v r : String) (room : RoomState)
    (hb : boundRoom s sid = some r) (hroom : getRoom s.rooms r = some room) :
    handleLoadVideo s sid v =
      if room.moderatorId ≠ "" ∧ sid ≠ room.moderatorId then
        (s, [(Audience.toSocket sid, Payload.errorMsg "Only moderator can load video")])
      else if isValidYouTubeId v = false then
        (s, [(Audience.toSocket sid, Payload.errorMsg "Invalid YouTube id")])
      else
        ({ s with rooms := setRoom s.rooms r ({ room with videoId := v, time := 0, playing := false }) },
         [(Audience.room r, Payload.loadVideoMsg v)]) := by
  rw [handleLoadVideo.eq_def]
  split
  · rename_i heq
    rw [hb] at heq
    cases heq
  · rename_i roomId heq
    rw [hb] at heq
    injection heq with heq2
    subst heq2
    split
    · rename_i heq3
      rw [hroom] at heq3
      cases heq3
    · rename_i room2 heq3
      rw [hroom] at heq3
      injection heq3 with heq4
      subst heq4
      rfl

theorem handlePlay_eq (s : SystemState) (sid : String) (time : Option Int) (r : String)
    (room : RoomState) (hb : boundRoom s sid = some r) (hroom : getRoom s.rooms r = some room) :
    handlePlay s sid time =
      ({ s with rooms := setRoom s.rooms r ({ room with time := jsOrOpt time 0, playing := true }) },
       [(Audience.exceptSender r sid, Payload.playMsg (jsOrOpt time 0))]) := by
  rw [handlePlay.eq_def]
  split
  · rename_i heq
    rw [hb] at heq
    cases heq
  · rename_i roomId heq
    rw [hb] at heq
    injection heq with heq2
    subst heq2
    split
    · rename_i heq3
      rw [hroom] at heq3
      cases heq3
    · rename_i room2 heq3
      rw [hroom] at heq3
      injection heq3 with heq4
      subst heq4
      rfl

theorem handlePause_eq (s : SystemState) (sid : String) (time : Option Int) (r : String)
    (room : RoomState) (hb : boundRoom s sid = some r) (hroom : getRoom s.rooms r = some room) :
    handlePause s sid time =
      ({ s with rooms := setRoom s.rooms r ({ room with time := jsOrOpt time 0, playing := false }) },
       [(Audience.exceptSender r sid, Payload.pauseMsg (jsOrOpt time 0))]) := by
  rw [handlePause.eq_def]
  split
  · rename_i heq
    rw [hb] at heq
    cases heq
  · rename_i roomId heq
    rw [hb] at heq
    injection heq with heq2
    subst heq2
    split
    · rename_i heq3
      rw [hroom] at heq3
      cases heq3
    · rename_i room2 heq3
      rw [hroom] at heq3
      injection heq3 with heq4
      subst heq4
      rfl

theorem handleSeek_eq (s : SystemState) (sid : String) (time : Option Int) (r : String)
    (room : RoomState) (hb : boundRoom s sid = some r) (hroom : getRoom s.rooms r = some room) :
    handleSeek s sid time =
      ({ s with rooms := setRoom s.rooms r ({ room with time := jsOrOpt time 0 }) },
       [(Audience.exceptSender r sid, Payload.seekMsg (jsOrOpt time 0))]) := by
  rw [handleSeek.eq_def]
  split
  · rename_i heq
    rw [hb] at heq
    cases heq
  · rename_i roomId heq
    rw [hb] at heq
    injection heq with heq2
    subst heq2
    split
    · rename_i heq3
      rw [hroom] at heq3
      cases heq3
    · rename_i room2 heq3
      rw [hroom] at heq3
      injection heq3 with heq4
      subst heq4
      rfl

theorem handleRequestSync_eq (s : SystemState) (sid : String) (r : String)
    (room : RoomState) (hb : boundRoom s sid = some r) (hroom : getRoom s.rooms r = some room) :
    handleRequestSync s sid = (s, [snapshotMsg sid room]) := by
  rw [handleRequestSync.eq_def]
  split
  · rename_i heq
    rw [hb] at heq
    cases heq
  · rename_i roomId heq
    rw [hb] at heq
    injection heq with heq2
    subst heq2
    split
    · rename_i heq3
      rw [hroom] at heq3
      cases heq3
    · rename_i room2 heq3
      rw [hroom] at heq3
      injection heq3 with heq4
      subst heq4
      rfl

theorem handlePause_unbound (s : SystemState) (sid : String) (time : Option Int)
    (hb : boundRoom s sid = none) : handlePause s sid time = (s, []) := by
  rw [handlePause.eq_def]
  split
  · rfl
  · rename_i roomId heq
    rw [hb] at heq
    cases heq

theorem handlePause_noroom (s : SystemState) (sid : String) (time : Option Int) (r : String)
    (hb : boundRoom s sid = some r) (hroom : getRoom s.rooms r = none) :
    handlePause s sid time = (s, []) := by
  rw [handlePause.eq_def]
  split
  · rfl
  · rename_i roomId heq
    rw [hb] at heq
    injection heq with heq2
    subst heq2
    split
    · rfl
    · rename_i room2 heq3
      rw [hroom] at heq3
      cases heq3

theorem handleChat_empty_text (s : SystemState) (sid : String) :
    handleChat s sid "" = (s, []) := by
  rw [handleChat.eq_def]
  split
  · rfl
  · rw [if_pos rfl]

theorem setRoom_setRoom_self (store : List (String × StoredRoom)) (r : String)
    (v w : RoomState) : setRoom (setRoom store r v) r w = setRoom store r w := by
  rw [setRoom, setRoom, setRoom, aset_aset_self]

/-! ## Claim C10: the store encoding round-trips -/

/-- C10: for every room state (string `videoId` and `moderatorId`, numeric
`time`, boolean `playing`, integer `membersCount`, string-array `queue`),
saving it with `setRoom` and loading the same key with `getRoom` returns a
state equal to the one saved. -/
theorem C10_setRoom_getRoom_roundtrip (store : List (String × StoredRoom)) (roomId : String)
    (state : RoomState) : getRoom (setRoom store roomId state) roomId = some state :=
  getRoom_setRoom_self store roomId state

/-! ## Claim C2: successful load-video -/

/-- C2: for every prior room state, after a successful `load-video` (actor
bound and authorized, id valid) the room's `videoId` equals the given id,
`position` is `0`, `playing` is `false`, and one room-wide
`load-video{videoId}` message is emitted. -/
theorem C2_loadVideo_success (s : SystemState) (sid v r : String) (d : SocketData)
    (room : RoomState) (hd : aget s.sockets sid = some d) (hb : d.roomId = some r)
    (hroom : getRoom s.rooms r = some room)
    (hauth : room.moderatorId = "" ∨ sid = room.moderatorId)
    (hv : isValidYouTubeId v = true) :
    step s (Op.loadVideo sid v) =
      ({ s with rooms := setRoom s.rooms r ({ room with videoId := v, time := 0, playing := false }) },
       [(Audience.room r, Payload.loadVideoMsg v)]) := by
  have hcond : ¬(room.moderatorId ≠ "" ∧ sid ≠ room.moderatorId) := by
    rcases hauth with h | h
    · intro hc; exact hc.1 h
    · intro hc; exact hc.2 h
  show handleLoadVideo s sid v = _
  rw [handleLoadVideo_eq s sid v r room (boundRoom_eq s sid d r hd hb) hroom,
    if_neg hcond, if_neg (by simp [hv])]

/-- Witness state for C2: `s1` connected and joined to room `r`. -/
def wState1 : SystemState := runOps [Op.connect "s1", Op.joinRoom "s1" "r" "Alice"]

/-- The room record of `wState1`. -/
def wRoom1 : RoomState where
  videoId := ""
  time := 0
  playing := false
  membersCount := 1
  moderatorId := "s1"
  queue := []

theorem C2_witness :
    step wState1 (Op.loadVideo "s1" "dQw4w9WgXcQ") =
      ({ wState1 with rooms := setRoom wState1.rooms "r" ({ wRoom1 with videoId := "dQw4w9WgXcQ", time := 0, playing := false }) },
       [(Audience.room "r", Payload.loadVideoMsg "dQw4w9WgXcQ")]) :=
  C2_loadVideo_success wState1 "s1" "dQw4w9WgXcQ" "r"
    { name := some "Alice", roomId := some "r" } wRoom1
    (by decide) (by decide) (by decide) (Or.inr (by decide)) (by decide)

/-! ## Claim C3: moderator-only gating while a moderator exists -/

/-- C3: a `load-video` with a valid id from a bound actor who is not the
moderator is rejected with the actor-only authorization error exactly when
the room has a non-empty `moderatorId`, and rejection leaves the whole state
unchanged; with an empty `moderatorId` the load is accepted. -/
theorem C3_loadVideo_authorization (s : SystemState) (sid v r : String) (d : SocketData)
    (room : RoomState) (hd : aget s.sockets sid = some d) (hb : d.roomId = some r)
    (hroom : getRoom s.rooms r = some room) (hnm : sid ≠ room.moderatorId)
    (hv : isValidYouTubeId v = true) :
    ((step s (Op.loadVideo sid v) =
        (s, [(Audience.toSocket sid, Payload.errorMsg "Only moderator can load video")])) ↔
      room.moderatorId ≠ "") ∧
    (room.moderatorId = "" →
      step s (Op.loadVideo sid v) =
        ({ s with rooms := setRoom s.rooms r ({ room with videoId := v, time := 0, playing := false }) },
         [(Audience.room r, Payload.loadVideoMsg v)])) := by
  have Hstep : step s (Op.loadVideo sid v) = handleLoadVideo s sid v := rfl
  have H := handleLoadVideo_eq s sid v r room (boundRoom_eq s sid d r hd hb) hroom
  by_cases hmod : room.moderatorId = ""
  · have hcond : ¬(room.moderatorId ≠ "" ∧ sid ≠ room.moderatorId) := fun hc => hc.1 hmod
    rw [if_neg hcond, if_neg (by simp [hv])] at H
    refine ⟨⟨fun hEq => ?_, fun hne => absurd hmod hne⟩, fun _ => Hstep.trans H⟩
    have h2 := H.symm.trans (Hstep.symm.trans hEq)
    simp at h2
  · have hcond : room.moderatorId ≠ "" ∧ sid ≠ room.moderatorId := ⟨hmod, hnm⟩
    rw [if_pos hcond] at H
    exact ⟨⟨fun _ => hmod, fun _ => Hstep.trans H⟩, fun h => absurd h hmod⟩

/-- Witness state for C3: moderator `s1` plus non-moderator `s2` in room
`r`. -/
def wState2 : SystemState :=
  runOps [Op.connect "s1", Op.joinRoom "s1" "r" "Alice", Op.connect "s2", Op.joinRoom "s2" "r" "Bob"]

/-- The room record of `wState2`. -/
def wRoom2 : RoomState where
  videoId := ""
  time := 0
  playing := false
  membersCount := 2
  moderatorId := "s1"
  queue := []

theorem C3_witness :
    ((step wState2 (Op.loadVideo "s2" "dQw4w9WgXcQ") =
        (wState2, [(Audience.toSocket "s2", Payload.errorMsg "Only moderator can load video")])) ↔
      wRoom2.moderatorId ≠ "") ∧
    (wRoom2.moderatorId = "" →
      step wState2 (Op.loadVideo "s2" "dQw4w9WgXcQ") =
        ({ wState2 with rooms := setRoom wState2.rooms "r" ({ wRoom2 with videoId := "dQw4w9WgXcQ", time := 0, playing := false }) },
         [(Audience.room "r", Payload.loadVideoMsg "dQw4w9WgXcQ")])) :=
  C3_loadVideo_authorization wState2 "s2" "dQw4w9WgXcQ" "r"
    { name := some "Bob", roomId := some "r" } wRoom2
    (by decide) (by decide) (by decide) (by decide) (by decide)

/-! ## Claim C5: malformed video id -/

/-- C5: a `load-video` from a bound actor whose id is not exactly 11 allowed
characters yields an actor-only error message and leaves the state entirely
unchanged (whichever of the two rejection paths fires first). -/
theorem C5_loadVideo_invalid (s : SystemState) (sid v r : String) (d : SocketData)
    (room : RoomState) (hd : aget s.sockets sid = some d) (hb : d.roomId = some r)
    (hroom : getRoom s.rooms r = some room) (hv : isValidYouTubeId v = false) :
    ∃ m, step s (Op.loadVideo sid v) = (s, [(Audience.toSocket sid, Payload.errorMsg m)]) := by
  have Hstep : step s (Op.loadVideo sid v) = handleLoadVideo s sid v := rfl
  have H := handleLoadVideo_eq s sid v r room (boundRoom_eq s sid d r hd hb) hroom
  by_cases hcond : room.moderatorId ≠ "" ∧ sid ≠ room.moderatorId
  · exact ⟨"Only moderator can load video", by rw [Hstep, H, if_pos hcond]⟩
  · exact ⟨"Invalid YouTube id", by rw [Hstep, H, if_neg hcond, if_pos hv]⟩

theorem C5_witness :
    ∃ m, step wState1 (Op.loadVideo "s1" "tooShort") =
      (wState1, [(Audience.toSocket "s1", Payload.errorMsg m)]) :=
  C5_loadVideo_invalid wState1 "s1" "tooShort" "r"
    { name := some "Alice", roomId := some "r" } wRoom1
    (by decide) (by decide) (by decide) (by decide)

/-! ## Claim C6: empty chat text -/

/-- C6 counterexample: in a reachable state with `s1` bound to room `r` (and
the room present in the store), a `chat` with empty text emits no message at
all — in particular the actor receives no actor-only error, contrary to the
claim. -/
theorem C6_counterexample :
    boundRoom wState1 "s1" = some "r" ∧ (getRoom wState1.rooms "r").isSome = true ∧
    step wState1 (Op.chat "s1" "") = (wState1, []) := by decide

/-- C6 (amended): a `chat` with empty text is dropped silently — no message
of any kind is emitted (no error, no broadcast) and the state is
unchanged. -/
theorem C6_empty_chat_silent (s : SystemState) (sid : String) :
    step s (Op.chat sid "") = (s, []) :=
  handleChat_empty_text s sid

/-! ## Claim C9: pause is idempotent -/

/-- C9: two consecutive `pause` events from the same actor with the same
position leave exactly the state a single one produces. -/
theorem C9_pause_idempotent (s : SystemState) (sid : String) (time : Option Int) :
    applyOp (applyOp s (Op.pause sid time)) (Op.pause sid time) = applyOp s (Op.pause sid time) := by
  show (handlePause (handlePause s sid time).1 sid time).1 = (handlePause s sid time).1
  cases hb : boundRoom s sid with
  | none =>
    rw [handlePause_unbound s sid time hb]
    show (handlePause s sid time).1 = s
    rw [handlePause_unbound s sid time hb]
  | some r =>
    cases hroom : getRoom s.rooms r with
    | none =>
      rw [handlePause_noroom s sid time r hb hroom]
      show (handlePause s sid time).1 = s
      rw [handlePause_noroom s sid time r hb hroom]
    | some room =>
      have hb2 : boundRoom ({ s with rooms := setRoom s.rooms r ({ room with time := jsOrOpt time 0, playing := false }) }) sid = some r := hb
      rw [handlePause_eq s sid time r room hb hroom]
      show (handlePause ({ s with rooms := setRoom s.rooms r ({ room with time := jsOrOpt time 0, playing := false }) }) sid time).1 =
        ({ s with rooms := setRoom s.rooms r ({ room with time := jsOrOpt time 0, playing := false }) } : SystemState)
      rw [handlePause_eq _ sid time r ({ room with time := jsOrOpt time 0, playing := false }) hb2 (getRoom_setRoom_self s.rooms r _)]
      show ({ s with rooms := setRoom (setRoom s.rooms r ({ room with time := jsOrOpt time 0, playing := false })) r ({ room with time := jsOrOpt time 0, playing := false }) } : SystemState) =
        ({ s with rooms := setRoom s.rooms r ({ room with time := jsOrOpt time 0, playing := false }) } : SystemState)
      rw [setRoom_setRoom_self]

/-! ## Claim C7: join-room binding semantics -/

theorem handleJoinRoom_empty (s : SystemState) (sid name : String) :
    handleJoinRoom s sid "" name =
      (s, [(Audience.toSocket sid, Payload.errorMsg "roomId required")]) := by
  rw [handleJoinRoom, if_pos rfl]

theorem handleJoinRoom_existing (s : SystemState) (sid r name : String) (st room2 : RoomState)
    (hr : r ≠ "") (hst : getRoom s.rooms r = some st)
    (h2 : room2 = if st.moderatorId = "" then { st with membersCount := jsOr st.membersCount 0 + 1, moderatorId := sid } else ({ st with membersCount := jsOr st.membersCount 0 + 1 } : RoomState)) :
    handleJoinRoom s sid r name =
      ({ sockets := aset s.sockets sid { name := some (jsOrStr name defaultName), roomId := some r },
         rooms := setRoom s.rooms r room2,
         groups := joinGroup s.groups r sid },
       [(Audience.room r, Payload.usersMsg room2.membersCount), snapshotMsg sid room2]) := by
  subst h2
  rw [handleJoinRoom, if_neg hr, hst]
  by_cases hmod : st.moderatorId = "" <;> simp [hmod]

/-- C7 counterexample: after connection `s1` binds to room `r` (memberCount
1), a second `join-room` from the same connection is processed again —
`memberCount` becomes 2, not the value the first bind established. -/
theorem C7_counterexample :
    (getRoom (runOps [Op.connect "s1", Op.joinRoom "s1" "r" "A"]).rooms "r").map RoomState.membersCount = some 1 ∧
    boundRoom (runOps [Op.connect "s1", Op.joinRoom "s1" "r" "A"]) "s1" = some "r" ∧
    (getRoom (runOps [Op.connect "s1", Op.joinRoom "s1" "r" "A", Op.joinRoom "s1" "r" "A"]).rooms "r").map RoomState.membersCount = some 2 := by
  decide

/-- C7 (amended): `join-room` is not first-bind-wins.  A second `join-room`
from an already-bound connection is processed like a fresh join: the binding
is overwritten by the new room id (last bind wins) and the target room's
`memberCount` is incremented again, while rooms other than the target keep
their records; a `join-room` with an absent or empty `roomId` is rejected
with an error and no state change. -/
theorem C7_rebind_join (s : SystemState) (sid r r0 name : String) (d : SocketData)
    (st : RoomState) (hr : r ≠ "") (hd : aget s.sockets sid = some d)
    (hb : d.roomId = some r0) (hst : getRoom s.rooms r = some st) :
    boundRoom (applyOp s (Op.joinRoom sid r name)) sid = some r ∧
    (getRoom (applyOp s (Op.joinRoom sid r name)).rooms r).map RoomState.membersCount = some (st.membersCount + 1) ∧
    (∀ r2, r2 ≠ r → getRoom (applyOp s (Op.joinRoom sid r name)).rooms r2 = getRoom s.rooms r2) ∧
    step s (Op.joinRoom sid "" name) = (s, [(Audience.toSocket sid, Payload.errorMsg "roomId required")]) := by
  have H := handleJoinRoom_existing s sid r name st _ hr hst rfl
  have Happly : applyOp s (Op.joinRoom sid r name) = (handleJoinRoom s sid r name).1 := rfl
  refine ⟨?_, ?_, ?_, handleJoinRoom_empty s sid name⟩
  · rw [Happly, H]
    show ((aget (aset s.sockets sid { name := some (jsOrStr name defaultName), roomId := some r }) sid).bind SocketData.roomId) = some r
    rw [aget_aset_self]
    rfl
  · rw [Happly, H]
    show (getRoom (setRoom s.rooms r _) r).map RoomState.membersCount = some (st.membersCount + 1)
    rw [getRoom_setRoom_self]
    by_cases hmod : st.moderatorId = "" <;> simp [hmod]
  · intro r2 hr2
    rw [Happly, H]
    show getRoom (setRoom s.rooms r _) r2 = getRoom s.rooms r2
    exact getRoom_setRoom_ne _ _ _ _ hr2

theorem C7_witness :
    boundRoom (applyOp wState1 (Op.joinRoom "s1" "r" "Bob")) "s1" = some "r" ∧
    (getRoom (applyOp wState1 (Op.joinRoom "s1" "r" "Bob")).rooms "r").map RoomState.membersCount = some (wRoom1.membersCount + 1) ∧
    (∀ r2, r2 ≠ "r" → getRoom (applyOp wState1 (Op.joinRoom "s1" "r" "Bob")).rooms r2 = getRoom wState1.rooms r2) ∧
    step wState1 (Op.joinRoom "s1" "" "Bob") = (wState1, [(Audience.toSocket "s1", Payload.errorMsg "roomId required")]) :=
  C7_rebind_join wState1 "s1" "r" "r" "Bob" { name := some "Alice", roomId := some "r" } wRoom1
    (by decide) (by decide) (by decide) (by decide)

/-! ## Claim C8: non-negative playback position -/

/-- C8 counterexample: the server stores client-supplied times unclamped, so
a `seek` with time `-1` makes the stored position negative in a reachable
state. -/
theorem C8_counterexample :
    (getRoom (runOps [Op.connect "s1", Op.joinRoom "s1" "r" "A", Op.seek "s1" (some (-1))]).rooms "r").map RoomState.time = some (-1) := by
  decide

/-- An event whose payload time (if any) is non-negative, absent meaning
`0`. -/
def nonNegTimeOp : Op → Bool
  | Op.play _ t => decide (0 ≤ t.getD 0)
  | Op.pause _ t => decide (0 ≤ t.getD 0)
  | Op.seek _ t => decide (0 ≤ t.getD 0)
  | _ => true

/-- All stored playback positions of a state are non-negative. -/
def roomTimesNonNeg (s : SystemState) : Prop :=
  ∀ r st, getRoom s.rooms r = some st → 0 ≤ st.time

theorem timesNonNeg_setRoom (store : List (String × StoredRoom)) (rid : String) (v : RoomState)
    (hstore : ∀ r st, getRoom store r = some st → 0 ≤ st.time) (hv : 0 ≤ v.time) :
    ∀ r st, getRoom (setRoom store rid v) r = some st → 0 ≤ st.time := by
  intro r st hlk
  by_cases h : r = rid
  · subst h
    rw [getRoom_setRoom_self] at hlk
    injection hlk with h1
    subst h1
    exact hv
  · rw [getRoom_setRoom_ne _ _ _ _ h] at hlk
    exact hstore r st hlk

theorem handleJoinRoom_rooms (s : SystemState) (sid r name : String) (hr : r ≠ "") :
    ∃ room2 : RoomState,
      (handleJoinRoom s sid r name).1.rooms =
        setRoom (match getRoom s.rooms r with | some _ => s.rooms | none => setRoom s.rooms r (initialRoom sid)) r room2 ∧
      room2.time = ((getRoom s.rooms r).getD (initialRoom sid)).time := by
  rw [handleJoinRoom, if_neg hr]
  refine ⟨_, rfl, ?_⟩
  split <;> rfl

theorem applyOp_timesNonNeg (s : SystemState) (op : Op) (hs : roomTimesNonNeg s)
    (hop : nonNegTimeOp op = true) : roomTimesNonNeg (applyOp s op) := by
  cases op with
  | connect sid =>
    show roomTimesNonNeg (handleConnect s sid).1
    have h1 : (handleConnect s sid).1.rooms = s.rooms := by
      rw [handleConnect.eq_def]
      split <;> rfl
    intro r st hlk
    rw [h1] at hlk
    exact hs r st hlk
  | joinRoom sid r name =>
    show roomTimesNonNeg (handleJoinRoom s sid r name).1
    by_cases hr : r = ""
    · subst hr
      rw [handleJoinRoom_empty]
      exact hs
    · obtain ⟨room2, hrooms, htime⟩ := handleJoinRoom_rooms s sid r name hr
      intro r2 st hlk
      rw [hrooms] at hlk
      by_cases he : r2 = r
      · subst he
        rw [getRoom_setRoom_self] at hlk
        injection hlk with h1
        subst h1
        rw [htime]
        cases hex : getRoom s.rooms r2 with
        | none => exact Int.le_refl 0
        | some st0 => exact hs r2 st0 hex
      · rw [getRoom_setRoom_ne _ _ _ _ he] at hlk
        cases hex : getRoom s.rooms r with
        | some st0 =>
          rw [hex] at hlk
          exact hs r2 st hlk
        | none =>
          rw [hex] at hlk
          have hlk2 : getRoom (setRoom s.rooms r (initialRoom sid)) r2 = some st := hlk
          rw [getRoom_setRoom_ne _ _ _ _ he] at hlk2
          exact hs r2 st hlk2
  | loadVideo sid v =>
    show roomTimesNonNeg (handleLoadVideo s sid v).1
    rw [handleLoadVideo.eq_def]
    split
    · exact hs
    · rename_i roomId heq
      split
      · exact hs
      · rename_i room heq2
        split
        · exact hs
        · split
          · exact hs
          · intro r2 st hlk
            have hlk2 : getRoom (setRoom s.rooms roomId ({ room with videoId := v, time := 0, playing := false })) r2 = some st := hlk
            exact timesNonNeg_setRoom s.rooms roomId ({ room with videoId := v, time := 0, playing := false }) hs (Int.le_refl 0) r2 st hlk2
  | play sid t =>
    show roomTimesNonNeg (handlePlay s sid t).1
    have ht : (0 : Int) ≤ jsOrOpt t 0 := by
      rw [jsOrOpt_zero]
      exact of_decide_eq_true hop
    rw [handlePlay.eq_def]
    split
    · exact hs
    · rename_i roomId heq
      split
      · exact hs
      · rename_i room heq2
        intro r2 st hlk
        have hlk2 : getRoom (setRoom s.rooms roomId ({ room with time := jsOrOpt t 0, playing := true })) r2 = some st := hlk
        exact timesNonNeg_setRoom s.rooms roomId _ hs ht r2 st hlk2
  | pause sid t =>
    show roomTimesNonNeg (handlePause s sid t).1
    have ht : (0 : Int) ≤ jsOrOpt t 0 := by
      rw [jsOrOpt_zero]
      exact of_decide_eq_true hop
    rw [handlePause.eq_def]
    split
    · exact hs
    · rename_i roomId heq
      split
      · exact hs
      · rename_i room heq2
        intro r2 st hlk
        have hlk2 : getRoom (setRoom s.rooms roomId ({ room with time := jsOrOpt t 0, playing := false })) r2 = some st := hlk
        exact timesNonNeg_setRoom s.rooms roomId _ hs ht r2 st hlk2
  | seek sid t =>
    show roomTimesNonNeg (handleSeek s sid t).1
    have ht : (0 : Int) ≤ jsOrOpt t 0 := by
      rw [jsOrOpt_zero]
      exact of_decide_eq_true hop
    rw [handleSeek.eq_def]
    split
    · exact hs
    · rename_i roomId heq
      split
      · exact hs
      · rename_i room heq2
        intro r2 st hlk
        have hlk2 : getRoom (setRoom s.rooms roomId ({ room with time := jsOrOpt t 0 })) r2 = some st := hlk
        exact timesNonNeg_setRoom s.rooms roomId _ hs ht r2 st hlk2
  | chat sid text =>
    show roomTimesNonNeg (handleChat s sid text).1
    have h1 : (handleChat s sid text).1 = s := by
      rw [handleChat.eq_def]
      split
      · rfl
      · split <;> rfl
    rw [h1]
    exact hs
  | requestSync sid =>
    show roomTimesNonNeg (handleRequestSync s sid).1
    have h1 : (handleRequestSync s sid).1 = s := by
      rw [handleRequestSync.eq_def]
      split
      · rfl
      · split <;> rfl
    rw [h1]
    exact hs
  | disconnect sid =>
    show roomTimesNonNeg (handleDisconnect s sid).1
    rw [handleDisconnect.eq_def]
    split
    · exact hs
    · rename_i roomId heq
      split
      · exact hs
      · rename_i room heq2
        intro r2 st hlk
        have hroom : getRoom s.rooms roomId = some room := heq2
        have hlk2 : getRoom (setRoom s.rooms roomId
            ({ room with
                membersCount := max 0 (jsOr room.membersCount 1 - 1),
                moderatorId := if room.moderatorId = sid then
                    (match getGroup (leaveAllGroups s.groups sid) roomId with
                     | [] => ""
                     | x :: _ => x)
                  else room.moderatorId })) r2 = some st := hlk
        exact timesNonNeg_setRoom s.rooms roomId
          ({ room with
              membersCount := max 0 (jsOr room.membersCount 1 - 1),
              moderatorId := if room.moderatorId = sid then
                  (match getGroup (leaveAllGroups s.groups sid) roomId with
                   | [] => ""
                   | x :: _ => x)
                else room.moderatorId }) hs (hs roomId room hroom) r2 st hlk2

/-- C8 (amended): the server does not clamp positions — it stores whatever
time the client sends (see the counterexample) — but as long as every
`play`/`pause`/`seek` in the run carries a non-negative (or absent) time, all
stored positions stay non-negative. -/
theorem C8_position_nonneg (ops : List Op) (h : ∀ op ∈ ops, nonNegTimeOp op = true) :
    ∀ r st, getRoom (runOps ops).rooms r = some st → 0 ≤ st.time := by
  have key : ∀ (ops2 : List Op) (s : SystemState), roomTimesNonNeg s →
      (∀ op ∈ ops2, nonNegTimeOp op = true) → roomTimesNonNeg (ops2.foldl applyOp s) := by
    intro ops2
    induction ops2 with
    | nil => intro s hs _; exact hs
    | cons op rest ih =>
      intro s hs hall
      exact ih (applyOp s op)
        (applyOp_timesNonNeg s op hs (hall op (List.mem_cons_self _ _)))
        (fun o ho => hall o (List.mem_cons_of_mem _ ho))
  have hinit : roomTimesNonNeg initState := by
    intro r st hlk
    have h0 : (none : Option RoomState) = some st := hlk
    cases h0
  exact key ops initState hinit h

/-- Witness operation list for C8. -/
def wOps8 : List Op := [Op.connect "s1", Op.joinRoom "s1" "r" "A", Op.play "s1" (some 5)]

theorem C8_witness :
    (∀ op ∈ wOps8, nonNegTimeOp op = true) ∧
    (∀ r st, getRoom (runOps wOps8).rooms r = some st → 0 ≤ st.time) :=
  ⟨by decide, C8_position_nonneg wOps8 (by decide)⟩

/-! ## Claims C1 and C4: the membership/moderator invariant

The invariant below relates the stored `membersCount`/`moderatorId` of every
room to the socket registry and the socket.io groups.  It is preserved by all
operations provided every `join-room` is a first bind (see `validOp`); the
counterexamples show it is not preserved by rebinding joins. -/

/-- The strengthened reachability invariant. -/
structure Inv (s : SystemState) : Prop where
  sid_ne : ∀ sid d, aget s.sockets sid = some d → sid ≠ ""
  nodup : ∀ r, (getGroup s.groups r).Nodup
  member_bound : ∀ r sid, sid ∈ getGroup s.groups r →
    ∃ d, aget s.sockets sid = some d ∧ d.roomId = some r
  bound_member : ∀ sid d r, aget s.sockets sid = some d → d.roomId = some r →
    sid ∈ getGroup s.groups r
  bound_room : ∀ sid d r, aget s.sockets sid = some d → d.roomId = some r →
    ∃ st, getRoom s.rooms r = some st
  room_inv : ∀ r st, getRoom s.rooms r = some st →
    st.membersCount = ((getGroup s.groups r).length : Int) ∧
    (st.moderatorId = "" ↔ getGroup s.groups r = []) ∧
    (getGroup s.groups r ≠ [] → st.moderatorId ∈ getGroup s.groups r)

theorem mem_group_unique (s : SystemState) (hs : Inv s) (sid r : String)
    (hmem : sid ∈ getGroup s.groups r) (d : SocketData) (hd : aget s.sockets sid = some d) :
    d.roomId = some r := by
  obtain ⟨d', hd', hb'⟩ := hs.member_bound r sid hmem
  rw [hd] at hd'
  injection hd' with h
  subst h
  exact hb'

theorem not_mem_group_of_unbound (s : SystemState) (hs : Inv s) (sid : String)
    (h : boundRoom s sid = none) : ∀ r, sid ∉ getGroup s.groups r := by
  intro r hmem
  obtain ⟨d, hd, hb⟩ := hs.member_bound r sid hmem
  rw [boundRoom, hd] at h
  have h2 : d.roomId = none := h
  rw [hb] at h2
  cases h2

theorem not_mem_group_of_bound_ne (s : SystemState) (hs : Inv s) (sid : String) (d : SocketData)
    (roomId : String) (hd : aget s.sockets sid = some d) (hb : d.roomId = some roomId) :
    ∀ r', r' ≠ roomId → sid ∉ getGroup s.groups r' := by
  intro r' hne hmem
  have h2 := mem_group_unique s hs sid r' hmem d hd
  rw [hb] at h2
  injection h2 with h3
  exact hne h3.symm

theorem handleDisconnect_unbound (s : SystemState) (sid : String)
    (h : boundRoom s sid = none) :
    handleDisconnect s sid =
      ({ sockets := aremove s.sockets sid, rooms := s.rooms,
         groups := leaveAllGroups s.groups sid }, []) := by
  rw [handleDisconnect.eq_def]
  dsimp only
  split
  · rfl
  · rename_i roomId heq
    rw [h] at heq
    cases heq

theorem handleDisconnect_noroom (s : SystemState) (sid r : String)
    (hb : boundRoom s sid = some r) (hroom : getRoom s.rooms r = none) :
    handleDisconnect s sid =
      ({ sockets := aremove s.sockets sid, rooms := s.rooms,
         groups := leaveAllGroups s.groups sid }, []) := by
  rw [handleDisconnect.eq_def]
  dsimp only
  split
  · rfl
  · rename_i roomId heq
    rw [hb] at heq
    injection heq with heq2
    subst heq2
    split
    · rfl
    · rename_i room heq3
      rw [hroom] at heq3
      cases heq3

theorem handleDisconnect_eq (s : SystemState) (sid r : String) (room : RoomState)
    (hb : boundRoom s sid = some r) (hroom : getRoom s.rooms r = some room) :
    handleDisconnect s sid =
      ({ sockets := aremove s.sockets sid,
         rooms := setRoom s.rooms r ({ room with
            membersCount := max 0 (jsOr room.membersCount 1 - 1),
            moderatorId := if room.moderatorId = sid then
                (match getGroup (leaveAllGroups s.groups sid) r with
                 | [] => ""
                 | x :: _ => x)
              else room.moderatorId }),
         groups := leaveAllGroups s.groups sid },
       if max 0 (jsOr room.membersCount 1 - 1) = 0 then []
       else [(Audience.room r, Payload.usersMsg (max 0 (jsOr room.membersCount 1 - 1)))]) := by
  rw [handleDisconnect.eq_def]
  dsimp only
  split
  · rename_i heq
    rw [hb] at heq
    cases heq
  · rename_i roomId heq
    rw [hb] at heq
    injection heq with heq2
    subst heq2
    split
    · rename_i heq3
      rw [hroom] at heq3
      cases heq3
    · rename_i room2 heq3
      rw [hroom] at heq3
      injection heq3 with heq4
      subst heq4
      rfl

theorem handleConnect_fresh (s : SystemState) (sid : String)
    (h : aget s.sockets sid = none) :
    handleConnect s sid =
      ({ s with sockets := aset s.sockets sid { name := none, roomId := none } }, []) := by
  rw [handleConnect.eq_def]
  split
  · rename_i d heq
    rw [h] at heq
    cases heq
  · rfl

theorem handleConnect_known (s : SystemState) (sid : String) (d : SocketData)
    (h : aget s.sockets sid = some d) : handleConnect s sid = (s, []) := by
  rw [handleConnect.eq_def]
  split
  · rfl
  · rename_i heq
    rw [h] at heq
    cases heq

theorem handleJoinRoom_fresh (s : SystemState) (sid r name : String)
    (hr : r ≠ "") (hsid : sid ≠ "") (hst : getRoom s.rooms r = none) :
    handleJoinRoom s sid r name =
      ({ sockets := aset s.sockets sid { name := some (jsOrStr name defaultName), roomId := some r },
         rooms := setRoom s.rooms r ({ videoId := "", time := 0, playing := false, membersCount := 1, moderatorId := sid, queue := [] }),
         groups := joinGroup s.groups r sid },
       [(Audience.room r, Payload.usersMsg 1),
        snapshotMsg sid ({ videoId := "", time := 0, playing := false, membersCount := 1, moderatorId := sid, queue := [] })]) := by
  rw [handleJoinRoom, if_neg hr, hst]
  simp [jsOr, hsid, setRoom_setRoom_self, initialRoom, snapshotMsg]

theorem handleChat_fst (s : SystemState) (sid text : String) :
    (handleChat s sid text).1 = s := by
  rw [handleChat.eq_def]
  split
  · rfl
  · split <;> rfl

theorem handleRequestSync_fst (s : SystemState) (sid : String) :
    (handleRequestSync s sid).1 = s := by
  rw [handleRequestSync.eq_def]
  split
  · rfl
  · split <;> rfl

theorem Inv_setRoom_same_mod (s : SystemState) (hs : Inv s) (rid : String)
    (room room1 : RoomState) (hroom : getRoom s.rooms rid = some room)
    (hc : room1.membersCount = room.membersCount) (hm : room1.moderatorId = room.moderatorId) :
    Inv { s with rooms := setRoom s.rooms rid room1 } := by
  constructor
  · exact hs.sid_ne
  · exact hs.nodup
  · exact hs.member_bound
  · exact hs.bound_member
  · intro sid d r hd hb
    by_cases he : r = rid
    · subst he
      exact ⟨room1, getRoom_setRoom_self _ _ _⟩
    · obtain ⟨st, hst⟩ := hs.bound_room sid d r hd hb
      exact ⟨st, by rw [getRoom_setRoom_ne _ _ _ _ he]; exact hst⟩
  · intro r st hlk
    by_cases he : r = rid
    · subst he
      rw [getRoom_setRoom_self] at hlk
      injection hlk with h1
      subst h1
      obtain ⟨h2, h3, h4⟩ := hs.room_inv r room hroom
      exact ⟨by rw [hc]; exact h2, by rw [hm]; exact h3, by rw [hm]; exact h4⟩
    · rw [getRoom_setRoom_ne _ _ _ _ he] at hlk
      exact hs.room_inv r st hlk

theorem Inv_connect (s : SystemState) (sid : String) (hs : Inv s) (hsid : sid ≠ "") :
    Inv (handleConnect s sid).1 := by
  cases hex : aget s.sockets sid with
  | some d =>
    rw [handleConnect_known s sid d hex]
    exact hs
  | none =>
    rw [handleConnect_fresh s sid hex]
    constructor
    · intro sid' d hd
      by_cases he : sid' = sid
      · subst he; exact hsid
      · rw [show aget ({ s with sockets := aset s.sockets sid { name := none, roomId := none } } : SystemState).sockets sid' = aget (aset s.sockets sid { name := none, roomId := none }) sid' from rfl, aget_aset_ne _ _ _ _ he] at hd
        exact hs.sid_ne sid' d hd
    · exact hs.nodup
    · intro r sid' hmem
      obtain ⟨d, hd, hb⟩ := hs.member_bound r sid' hmem
      have hne : sid' ≠ sid := by
        intro he
        subst he
        rw [hex] at hd
        cases hd
      refine ⟨d, ?_, hb⟩
      show aget (aset s.sockets sid { name := none, roomId := none }) sid' = some d
      rw [aget_aset_ne _ _ _ _ hne]
      exact hd
    · intro sid' d r hd hb
      by_cases he : sid' = sid
      · subst he
        have hd2 : aget (aset s.sockets sid' { name := none, roomId := none }) sid' = some d := hd
        rw [aget_aset_self] at hd2
        injection hd2 with h1
        rw [← h1] at hb
        simp at hb
      · have hd2 : aget (aset s.sockets sid { name := none, roomId := none }) sid' = some d := hd
        rw [aget_aset_ne _ _ _ _ he] at hd2
        exact hs.bound_member sid' d r hd2 hb
    · intro sid' d r hd hb
      by_cases he : sid' = sid
      · subst he
        have hd2 : aget (aset s.sockets sid' { name := none, roomId := none }) sid' = some d := hd
        rw [aget_aset_self] at hd2
        injection hd2 with h1
        rw [← h1] at hb
        simp at hb
      · have hd2 : aget (aset s.sockets sid { name := none, roomId := none }) sid' = some d := hd
        rw [aget_aset_ne _ _ _ _ he] at hd2
        exact hs.bound_room sid' d r hd2 hb
    · exact hs.room_inv

theorem Inv_loadVideo (s : SystemState) (sid v : String) (hs : Inv s) :
    Inv (handleLoadVideo s sid v).1 := by
  rw [handleLoadVideo.eq_def]
  split
  · exact hs
  · rename_i roomId heq
    split
    · exact hs
    · rename_i room heq2
      split
      · exact hs
      · split
        · exact hs
        · exact Inv_setRoom_same_mod s hs roomId room
            ({ room with videoId := v, time := 0, playing := false }) heq2 rfl rfl

theorem Inv_play (s : SystemState) (sid : String) (t : Option Int) (hs : Inv s) :
    Inv (handlePlay s sid t).1 := by
  rw [handlePlay.eq_def]
  split
  · exact hs
  · rename_i roomId heq
    split
    · exact hs
    · rename_i room heq2
      exact Inv_setRoom_same_mod s hs roomId room
        ({ room with time := jsOrOpt t 0, playing := true }) heq2 rfl rfl

theorem Inv_pause (s : SystemState) (sid : String) (t : Option Int) (hs : Inv s) :
    Inv (handlePause s sid t).1 := by
  rw [handlePause.eq_def]
  split
  · exact hs
  · rename_i roomId heq
    split
    · exact hs
    · rename_i room heq2
      exact Inv_setRoom_same_mod s hs roomId room
        ({ room with time := jsOrOpt t 0, playing := false }) heq2 rfl rfl

theorem Inv_seek (s : SystemState) (sid : String) (t : Option Int) (hs : Inv s) :
    Inv (handleSeek s sid t).1 := by
  rw [handleSeek.eq_def]
  split
  · exact hs
  · rename_i roomId heq
    split
    · exact hs
    · rename_i room heq2
      exact Inv_setRoom_same_mod s hs roomId room ({ room with time := jsOrOpt t 0 }) heq2 rfl rfl

theorem Inv_join_core (s : SystemState) (sid r : String) (nm : Option String)
    (room2 : RoomState) (hs : Inv s) (hsid : sid ≠ "")
    (hnot : ∀ r2, sid ∉ getGroup s.groups r2)
    (hcount : room2.membersCount = ((getGroup s.groups r).length : Int) + 1)
    (hmodne : room2.moderatorId ≠ "")
    (hmodmem : room2.moderatorId ∈ getGroup s.groups r ++ [sid]) :
    Inv { sockets := aset s.sockets sid { name := nm, roomId := some r },
          rooms := setRoom s.rooms r room2,
          groups := joinGroup s.groups r sid } := by
  have hG : getGroup (joinGroup s.groups r sid) r = getGroup s.groups r ++ [sid] := by
    rw [getGroup_joinGroup_self, if_neg (hnot r)]
  have hG' : ∀ r2, r2 ≠ r → getGroup (joinGroup s.groups r sid) r2 = getGroup s.groups r2 :=
    fun r2 h => getGroup_joinGroup_ne s.groups r r2 sid h
  constructor
  · intro sid' d hd
    by_cases he : sid' = sid
    · subst he
      exact hsid
    · have hd2 : aget (aset s.sockets sid { name := nm, roomId := some r }) sid' = some d := hd
      rw [aget_aset_ne _ _ _ _ he] at hd2
      exact hs.sid_ne sid' d hd2
  · intro r2
    show (getGroup (joinGroup s.groups r sid) r2).Nodup
    by_cases he : r2 = r
    · subst he
      rw [hG]
      exact (hs.nodup r2).append (List.nodup_singleton sid)
        (fun x hx hx2 => by
          rw [List.mem_singleton] at hx2
          subst hx2
          exact hnot r2 hx)
    · rw [hG' r2 he]
      exact hs.nodup r2
  · intro r2 sid' hmem
    have hmem2 : sid' ∈ getGroup (joinGroup s.groups r sid) r2 := hmem
    by_cases he : r2 = r
    · subst he
      rw [hG] at hmem2
      rcases List.mem_append.mp hmem2 with h | h
      · obtain ⟨d, hd, hb⟩ := hs.member_bound r2 sid' h
        have hne : sid' ≠ sid := fun hee => by
          subst hee
          exact hnot r2 h
        refine ⟨d, ?_, hb⟩
        show aget (aset s.sockets sid { name := nm, roomId := some r2 }) sid' = some d
        rw [aget_aset_ne _ _ _ _ hne]
        exact hd
      · rw [List.mem_singleton] at h
        subst h
        refine ⟨{ name := nm, roomId := some r2 }, ?_, rfl⟩
        show aget (aset s.sockets sid' { name := nm, roomId := some r2 }) sid' = _
        exact aget_aset_self _ _ _
    · rw [hG' r2 he] at hmem2
      obtain ⟨d, hd, hb⟩ := hs.member_bound r2 sid' hmem2
      have hne : sid' ≠ sid := fun hee => by
        subst hee
        exact hnot r2 hmem2
      refine ⟨d, ?_, hb⟩
      show aget (aset s.sockets sid { name := nm, roomId := some r }) sid' = some d
      rw [aget_aset_ne _ _ _ _ hne]
      exact hd
  · intro sid' d r2 hd hb
    show sid' ∈ getGroup (joinGroup s.groups r sid) r2
    have hd2 : aget (aset s.sockets sid { name := nm, roomId := some r }) sid' = some d := hd
    by_cases he : sid' = sid
    · subst he
      rw [aget_aset_self] at hd2
      injection hd2 with h1
      rw [← h1] at hb
      have hb2 : some r = some r2 := hb
      injection hb2 with h2
      subst h2
      rw [hG]
      exact List.mem_append_right _ (List.mem_singleton_self _)
    · rw [aget_aset_ne _ _ _ _ he] at hd2
      have hmem := hs.bound_member sid' d r2 hd2 hb
      by_cases he2 : r2 = r
      · subst he2
        rw [hG]
        exact List.mem_append_left _ hmem
      · rw [hG' r2 he2]
        exact hmem
  · intro sid' d r2 hd hb
    have hd2 : aget (aset s.sockets sid { name := nm, roomId := some r }) sid' = some d := hd
    by_cases he2 : r2 = r
    · subst he2
      refine ⟨room2, ?_⟩
      show getRoom (setRoom s.rooms r2 room2) r2 = some room2
      exact getRoom_setRoom_self _ _ _
    · by_cases he : sid' = sid
      · subst he
        rw [aget_aset_self] at hd2
        injection hd2 with h1
        rw [← h1] at hb
        have hb2 : some r = some r2 := hb
        injection hb2 with h2
        exact absurd h2.symm he2
      · rw [aget_aset_ne _ _ _ _ he] at hd2
        obtain ⟨st, hst⟩ := hs.bound_room sid' d r2 hd2 hb
        refine ⟨st, ?_⟩
        show getRoom (setRoom s.rooms r room2) r2 = some st
        rw [getRoom_setRoom_ne _ _ _ _ he2]
        exact hst
  · intro r2 st hlk
    have hlk2 : getRoom (setRoom s.rooms r room2) r2 = some st := hlk
    by_cases he : r2 = r
    · subst he
      rw [getRoom_setRoom_self] at hlk2
      injection hlk2 with h1
      subst h1
      refine ⟨?_, ?_, ?_⟩
      · show room2.membersCount = ((getGroup (joinGroup s.groups r2 sid) r2).length : Int)
        rw [hG, hcount]
        simp
      · show room2.moderatorId = "" ↔ getGroup (joinGroup s.groups r2 sid) r2 = []
        rw [hG]
        constructor
        · intro h
          exact absurd h hmodne
        · intro h
          exact absurd h (by simp)
      · intro _
        show room2.moderatorId ∈ getGroup (joinGroup s.groups r2 sid) r2
        rw [hG]
        exact hmodmem
    · rw [getRoom_setRoom_ne _ _ _ _ he] at hlk2
      obtain ⟨h2, h3, h4⟩ := hs.room_inv r2 st hlk2
      refine ⟨?_, ?_, ?_⟩
      · show st.membersCount = ((getGroup (joinGroup s.groups r sid) r2).length : Int)
        rw [hG' r2 he]
        exact h2
      · show st.moderatorId = "" ↔ getGroup (joinGroup s.groups r sid) r2 = []
        rw [hG' r2 he]
        exact h3
      · show getGroup (joinGroup s.groups r sid) r2 ≠ [] →
          st.moderatorId ∈ getGroup (joinGroup s.groups r sid) r2
        rw [hG' r2 he]
        exact h4

theorem Inv_join (s : SystemState) (sid r name : String) (d0 : SocketData) (hs : Inv s)
    (hd0 : aget s.sockets sid = some d0) (hb0 : d0.roomId = none) :
    Inv (handleJoinRoom s sid r name).1 := by
  by_cases hr : r = ""
  · subst hr
    rw [handleJoinRoom_empty]
    exact hs
  · have hsid : sid ≠ "" := hs.sid_ne sid d0 hd0
    have hunb : boundRoom s sid = none := by
      rw [boundRoom, hd0]
      exact hb0
    have hnot := not_mem_group_of_unbound s hs sid hunb
    cases hex : getRoom s.rooms r with
    | some st =>
      obtain ⟨hc, hiff, hmem⟩ := hs.room_inv r st hex
      rw [handleJoinRoom_existing s sid r name st _ hr hex rfl]
      refine Inv_join_core s sid r (some (jsOrStr name defaultName)) _ hs hsid hnot ?_ ?_ ?_
      · by_cases hmod : st.moderatorId = ""
        · rw [if_pos hmod]
          show jsOr st.membersCount 0 + 1 = _
          rw [jsOr_zero, hc]
        · rw [if_neg hmod]
          show jsOr st.membersCount 0 + 1 = _
          rw [jsOr_zero, hc]
      · by_cases hmod : st.moderatorId = ""
        · rw [if_pos hmod]
          exact hsid
        · rw [if_neg hmod]
          exact hmod
      · by_cases hmod : st.moderatorId = ""
        · rw [if_pos hmod]
          show sid ∈ getGroup s.groups r ++ [sid]
          exact List.mem_append_right _ (List.mem_singleton_self _)
        · rw [if_neg hmod]
          show st.moderatorId ∈ getGroup s.groups r ++ [sid]
          have hGne : getGroup s.groups r ≠ [] := fun h => hmod (hiff.mpr h)
          exact List.mem_append_left _ (hmem hGne)
    | none =>
      rw [handleJoinRoom_fresh s sid r name hr hsid hex]
      have hGnil : getGroup s.groups r = [] := by
        cases hq : getGroup s.groups r with
        | nil => rfl
        | cons x t =>
          have hx : x ∈ getGroup s.groups r := by
            rw [hq]
            exact List.mem_cons_self _ _
          obtain ⟨d, hd, hb⟩ := hs.member_bound r x hx
          obtain ⟨st, hst⟩ := hs.bound_room x d r hd hb
          rw [hex] at hst
          cases hst
      refine Inv_join_core s sid r (some (jsOrStr name defaultName))
        ({ videoId := "", time := 0, playing := false, membersCount := 1, moderatorId := sid, queue := [] })
        hs hsid hnot ?_ ?_ ?_
      · show (1 : Int) = ((getGroup s.groups r).length : Int) + 1
        rw [hGnil]
        rfl
      · exact hsid
      · show sid ∈ getGroup s.groups r ++ [sid]
        exact List.mem_append_right _ (List.mem_singleton_self _)

theorem Inv_remove_unbound (s : SystemState) (sid : String) (hs : Inv s)
    (hunb : boundRoom s sid = none) :
    Inv { sockets := aremove s.sockets sid, rooms := s.rooms,
          groups := leaveAllGroups s.groups sid } := by
  have hnot := not_mem_group_of_unbound s hs sid hunb
  have hG : ∀ r, getGroup (leaveAllGroups s.groups sid) r = getGroup s.groups r := by
    intro r
    rw [getGroup_leaveAllGroups]
    exact List.erase_of_not_mem (hnot r)
  constructor
  · intro sid' d hd
    have hd2 : aget (aremove s.sockets sid) sid' = some d := hd
    by_cases he : sid' = sid
    · subst he
      rw [aget_aremove_self] at hd2
      cases hd2
    · rw [aget_aremove_ne _ _ _ he] at hd2
      exact hs.sid_ne sid' d hd2
  · intro r
    show (getGroup (leaveAllGroups s.groups sid) r).Nodup
    rw [hG]
    exact hs.nodup r
  · intro r sid' hmem
    have hmem2 : sid' ∈ getGroup (leaveAllGroups s.groups sid) r := hmem
    rw [hG] at hmem2
    obtain ⟨d, hd, hb⟩ := hs.member_bound r sid' hmem2
    have hne : sid' ≠ sid := by
      intro he
      subst he
      exact hnot r hmem2
    refine ⟨d, ?_, hb⟩
    show aget (aremove s.sockets sid) sid' = some d
    rw [aget_aremove_ne _ _ _ hne]
    exact hd
  · intro sid' d r hd hb
    have hd2 : aget (aremove s.sockets sid) sid' = some d := hd
    by_cases he : sid' = sid
    · subst he
      rw [aget_aremove_self] at hd2
      cases hd2
    · rw [aget_aremove_ne _ _ _ he] at hd2
      show sid' ∈ getGroup (leaveAllGroups s.groups sid) r
      rw [hG]
      exact hs.bound_member sid' d r hd2 hb
  · intro sid' d r hd hb
    have hd2 : aget (aremove s.sockets sid) sid' = some d := hd
    by_cases he : sid' = sid
    · subst he
      rw [aget_aremove_self] at hd2
      cases hd2
    · rw [aget_aremove_ne _ _ _ he] at hd2
      exact hs.bound_room sid' d r hd2 hb
  · intro r st hlk
    obtain ⟨h2, h3, h4⟩ := hs.room_inv r st hlk
    refine ⟨?_, ?_, ?_⟩
    · show st.membersCount = ((getGroup (leaveAllGroups s.groups sid) r).length : Int)
      rw [hG]
      exact h2
    · show st.moderatorId = "" ↔ getGroup (leaveAllGroups s.groups sid) r = []
      rw [hG]
      exact h3
    · show getGroup (leaveAllGroups s.groups sid) r ≠ [] →
        st.moderatorId ∈ getGroup (leaveAllGroups s.groups sid) r
      rw [hG]
      exact h4

theorem Inv_disconnect_bound (s : SystemState) (sid roomId : String) (d : SocketData)
    (room newRoom : RoomState) (hs : Inv s) (hd : aget s.sockets sid = some d)
    (hbd : d.roomId = some roomId) (hroom : getRoom s.rooms roomId = some room)
    (hnew : newRoom = { room with
        membersCount := max 0 (jsOr room.membersCount 1 - 1),
        moderatorId := if room.moderatorId = sid then
            (match getGroup (leaveAllGroups s.groups sid) roomId with
             | [] => ""
             | x :: _ => x)
          else room.moderatorId }) :
    Inv { sockets := aremove s.sockets sid,
          rooms := setRoom s.rooms roomId newRoom,
          groups := leaveAllGroups s.groups sid } := by
  have hmemsid : sid ∈ getGroup s.groups roomId := hs.bound_member sid d roomId hd hbd
  have hnotother := not_mem_group_of_bound_ne s hs sid d roomId hd hbd
  have hGmain : getGroup (leaveAllGroups s.groups sid) roomId =
      (getGroup s.groups roomId).erase sid := getGroup_leaveAllGroups _ _ _
  have hGother : ∀ r', r' ≠ roomId →
      getGroup (leaveAllGroups s.groups sid) r' = getGroup s.groups r' := by
    intro r' h
    rw [getGroup_leaveAllGroups]
    exact List.erase_of_not_mem (hnotother r' h)
  obtain ⟨hc, hiff, hmem⟩ := hs.room_inv roomId room hroom
  have hpos : 0 < (getGroup s.groups roomId).length := List.length_pos_of_mem hmemsid
  have hcne : room.membersCount ≠ 0 := by
    rw [hc]
    intro h
    omega
  have hcval : jsOr room.membersCount 1 = room.membersCount := by
    rw [jsOr, if_neg hcne]
  have herase_len : ((getGroup s.groups roomId).erase sid).length =
      (getGroup s.groups roomId).length - 1 := List.length_erase_of_mem hmemsid
  have hc1 : max 0 (jsOr room.membersCount 1 - 1) =
      ((((getGroup s.groups roomId).erase sid).length : Nat) : Int) := by
    rw [hcval, hc, herase_len]
    omega
  constructor
  · intro sid' d' hd'
    have hd2 : aget (aremove s.sockets sid) sid' = some d' := hd'
    by_cases he : sid' = sid
    · subst he
      rw [aget_aremove_self] at hd2
      cases hd2
    · rw [aget_aremove_ne _ _ _ he] at hd2
      exact hs.sid_ne sid' d' hd2
  · intro r'
    show (getGroup (leaveAllGroups s.groups sid) r').Nodup
    by_cases he : r' = roomId
    · subst he
      rw [hGmain]
      exact (hs.nodup r').erase sid
    · rw [hGother r' he]
      exact hs.nodup r'
  · intro r' sid' hmem'
    have hmem2 : sid' ∈ getGroup (leaveAllGroups s.groups sid) r' := hmem'
    by_cases he : r' = roomId
    · subst he
      rw [hGmain] at hmem2
      have hne : sid' ≠ sid := ((hs.nodup r').mem_erase_iff.mp hmem2).1
      have hing : sid' ∈ getGroup s.groups r' := List.mem_of_mem_erase hmem2
      obtain ⟨d', hd', hb'⟩ := hs.member_bound r' sid' hing
      refine ⟨d', ?_, hb'⟩
      show aget (aremove s.sockets sid) sid' = some d'
      rw [aget_aremove_ne _ _ _ hne]
      exact hd'
    · rw [hGother r' he] at hmem2
      obtain ⟨d', hd', hb'⟩ := hs.member_bound r' sid' hmem2
      have hne : sid' ≠ sid := by
        intro hee
        subst hee
        exact hnotother r' he hmem2
      refine ⟨d', ?_, hb'⟩
      show aget (aremove s.sockets sid) sid' = some d'
      rw [aget_aremove_ne _ _ _ hne]
      exact hd'
  · intro sid' d' r' hd' hb'
    have hd2 : aget (aremove s.sockets sid) sid' = some d' := hd'
    by_cases he : sid' = sid
    · subst he
      rw [aget_aremove_self] at hd2
      cases hd2
    · rw [aget_aremove_ne _ _ _ he] at hd2
      have hmem' := hs.bound_member sid' d' r' hd2 hb'
      show sid' ∈ getGroup (leaveAllGroups s.groups sid) r'
      by_cases he2 : r' = roomId
      · subst he2
        rw [hGmain]
        exact (List.mem_erase_of_ne he).mpr hmem'
      · rw [hGother r' he2]
        exact hmem'
  · intro sid' d' r' hd' hb'
    have hd2 : aget (aremove s.sockets sid) sid' = some d' := hd'
    by_cases he : sid' = sid
    · subst he
      rw [aget_aremove_self] at hd2
      cases hd2
    · rw [aget_aremove_ne _ _ _ he] at hd2
      by_cases he2 : r' = roomId
      · subst he2
        refine ⟨newRoom, ?_⟩
        show getRoom (setRoom s.rooms r' newRoom) r' = some newRoom
        exact getRoom_setRoom_self _ _ _
      · obtain ⟨st, hst⟩ := hs.bound_room sid' d' r' hd2 hb'
        refine ⟨st, ?_⟩
        show getRoom (setRoom s.rooms roomId newRoom) r' = some st
        rw [getRoom_setRoom_ne _ _ _ _ he2]
        exact hst
  · intro r' st hlk
    have hlk2 : getRoom (setRoom s.rooms roomId newRoom) r' = some st := hlk
    by_cases he : r' = roomId
    · subst he
      rw [getRoom_setRoom_self] at hlk2
      injection hlk2 with h1
      subst h1
      have hcnt : newRoom.membersCount = max 0 (jsOr room.membersCount 1 - 1) := by
        rw [hnew]
      have hmd : newRoom.moderatorId =
          (if room.moderatorId = sid then
            (match getGroup (leaveAllGroups s.groups sid) r' with
             | [] => ""
             | x :: _ => x)
          else room.moderatorId) := by
        rw [hnew]
      refine ⟨?_, ?_, ?_⟩
      · show newRoom.membersCount = ((getGroup (leaveAllGroups s.groups sid) r').length : Int)
        rw [hcnt, hGmain]
        exact hc1
      · show newRoom.moderatorId = "" ↔ getGroup (leaveAllGroups s.groups sid) r' = []
        rw [hmd, hGmain]
        by_cases hms : room.moderatorId = sid
        · rw [if_pos hms]
          cases herase : (getGroup s.groups r').erase sid with
          | nil => simp
          | cons x t =>
            have hxe : x ∈ (getGroup s.groups r').erase sid := by
              rw [herase]
              exact List.mem_cons_self _ _
            have hxg := List.mem_of_mem_erase hxe
            obtain ⟨dx, hdx, _⟩ := hs.member_bound r' x hxg
            have hxne := hs.sid_ne x dx hdx
            simp [hxne]
        · rw [if_neg hms]
          have hGne : getGroup s.groups r' ≠ [] := List.ne_nil_of_mem hmemsid
          have hmodne : room.moderatorId ≠ "" := fun h => hGne (hiff.mp h)
          have hmine : room.moderatorId ∈ (getGroup s.groups r').erase sid :=
            (List.mem_erase_of_ne hms).mpr (hmem hGne)
          constructor
          · intro h
            exact absurd h hmodne
          · intro h
            rw [h] at hmine
            simp at hmine
      · intro hne'
        show newRoom.moderatorId ∈ getGroup (leaveAllGroups s.groups sid) r'
        rw [hmd, hGmain]
        rw [hGmain] at hne'
        by_cases hms : room.moderatorId = sid
        · rw [if_pos hms]
          cases herase : (getGroup s.groups r').erase sid with
          | nil =>
            rw [herase] at hne'
            exact absurd rfl hne'
          | cons x t =>
            exact List.mem_cons_self x t
        · rw [if_neg hms]
          have hGne : getGroup s.groups r' ≠ [] := List.ne_nil_of_mem hmemsid
          exact (List.mem_erase_of_ne hms).mpr (hmem hGne)
    · rw [getRoom_setRoom_ne _ _ _ _ he] at hlk2
      obtain ⟨h2, h3, h4⟩ := hs.room_inv r' st hlk2
      refine ⟨?_, ?_, ?_⟩
      · show st.membersCount = ((getGroup (leaveAllGroups s.groups sid) r').length : Int)
        rw [hGother r' he]
        exact h2
      · show st.moderatorId = "" ↔ getGroup (leaveAllGroups s.groups sid) r' = []
        rw [hGother r' he]
        exact h3
      · show getGroup (leaveAllGroups s.groups sid) r' ≠ [] →
          st.moderatorId ∈ getGroup (leaveAllGroups s.groups sid) r'
        rw [hGother r' he]
        exact h4

theorem Inv_applyOp (s : SystemState) (op : Op) (hs : Inv s) (hv : validOp s op = true) :
    Inv (applyOp s op) := by
  cases op with
  | connect sid =>
    have hv2 : (sid != "") = true := hv
    have hsid : sid ≠ "" := by simpa using hv2
    exact Inv_connect s sid hs hsid
  | joinRoom sid r name =>
    have hv2 : (match aget s.sockets sid with
        | some d => d.roomId.isNone
        | none => false) = true := hv
    cases hex : aget s.sockets sid with
    | none =>
      rw [hex] at hv2
      cases hv2
    | some d0 =>
      rw [hex] at hv2
      have hv3 : d0.roomId.isNone = true := hv2
      have hb0 : d0.roomId = none := by
        cases hq : d0.roomId with
        | none => rfl
        | some r0 =>
          rw [hq] at hv3
          simp at hv3
      exact Inv_join s sid r name d0 hs hex hb0
  | loadVideo sid v => exact Inv_loadVideo s sid v hs
  | play sid t => exact Inv_play s sid t hs
  | pause sid t => exact Inv_pause s sid t hs
  | seek sid t => exact Inv_seek s sid t hs
  | chat sid text =>
    show Inv (handleChat s sid text).1
    rw [handleChat_fst]
    exact hs
  | requestSync sid =>
    show Inv (handleRequestSync s sid).1
    rw [handleRequestSync_fst]
    exact hs
  | disconnect sid =>
    show Inv (handleDisconnect s sid).1
    cases hex : aget s.sockets sid with
    | none =>
      have hunb : boundRoom s sid = none := by
        rw [boundRoom, hex]
        rfl
      rw [handleDisconnect_unbound s sid hunb]
      exact Inv_remove_unbound s sid hs hunb
    | some d =>
      cases hbd : d.roomId with
      | none =>
        have hunb : boundRoom s sid = none := by
          rw [boundRoom, hex]
          exact hbd
        rw [handleDisconnect_unbound s sid hunb]
        exact Inv_remove_unbound s sid hs hunb
      | some roomId =>
        have hb : boundRoom s sid = some roomId := by
          rw [boundRoom, hex]
          exact hbd
        obtain ⟨room, hroom⟩ := hs.bound_room sid d roomId hex hbd
        rw [handleDisconnect_eq s sid roomId room hb hroom]
        exact Inv_disconnect_bound s sid roomId d room _ hs hex hbd hroom rfl

theorem Inv_initState : Inv initState := by
  constructor
  · intro sid d hd
    have h : (none : Option SocketData) = some d := hd
    cases h
  · intro r
    exact List.nodup_nil
  · intro r sid hmem
    have h : sid ∈ ([] : List String) := hmem
    cases h
  · intro sid d r hd _
    have h : (none : Option SocketData) = some d := hd
    cases h
  · intro sid d r hd _
    have h : (none : Option SocketData) = some d := hd
    cases h
  · intro r st hlk
    have h : (none : Option RoomState) = some st := hlk
    cases h

theorem Inv_of_ReachNR (s : SystemState) (h : ReachNR s) : Inv s := by
  induction h with
  | init => exact Inv_initState
  | step s op hs hv ih => exact Inv_applyOp s op ih hv

/-- C1 counterexample: the sequence connect, join, join (a rebind the code
accepts), disconnect is made of in-scope operations only, yet it leaves room
`r` with `membersCount = 1 > 0` and `moderatorId = ""` — the claimed
invariant `moderatorId = "" ↔ memberCount = 0` fails on a reachable state. -/
theorem C1_counterexample :
    ∃ st, getRoom (runOps [Op.connect "s1", Op.joinRoom "s1" "r" "A", Op.joinRoom "s1" "r" "A", Op.disconnect "s1"]).rooms "r" = some st ∧
      0 < st.membersCount ∧ st.moderatorId = "" := by
  refine ⟨{ videoId := "", time := 0, playing := false, membersCount := 1, moderatorId := "", queue := [] }, ?_, ?_, ?_⟩ <;> decide

/-- C1 (amended): in every state reachable from the empty server when each
`join-room` is a first bind from a connected socket (no rebinding; socket ids
nonempty as the transport guarantees), every stored room has
`memberCount ≥ 0`, `moderatorId = "" ↔ memberCount = 0`, and a positive
`memberCount` means `moderatorId` names a currently-connected session bound
to that room. -/
theorem C1_room_invariant (s : SystemState) (h : ReachNR s) :
    ∀ r st, getRoom s.rooms r = some st →
      0 ≤ st.membersCount ∧
      (st.moderatorId = "" ↔ st.membersCount = 0) ∧
      (0 < st.membersCount →
        ∃ d, aget s.sockets st.moderatorId = some d ∧ d.roomId = some r) := by
  have hs := Inv_of_ReachNR s h
  intro r st hlk
  obtain ⟨hc, hiff, hmem⟩ := hs.room_inv r st hlk
  refine ⟨?_, ?_, ?_⟩
  · rw [hc]
    omega
  · rw [hc]
    constructor
    · intro h2
      rw [hiff.mp h2]
      rfl
    · intro h2
      apply hiff.mpr
      have h4 : (getGroup s.groups r).length = 0 := by exact_mod_cast h2
      exact List.eq_nil_of_length_eq_zero h4
  · intro hpos
    have hne : getGroup s.groups r ≠ [] := by
      intro h2
      rw [hc, h2] at hpos
      simp at hpos
    exact hs.member_bound r st.moderatorId (hmem hne)

theorem C1_witness :
    0 ≤ wRoom1.membersCount ∧
    (wRoom1.moderatorId = "" ↔ wRoom1.membersCount = 0) ∧
    (0 < wRoom1.membersCount →
      ∃ d, aget wState1.sockets wRoom1.moderatorId = some d ∧ d.roomId = some "r") :=
  C1_room_invariant wState1
    (ReachNR.step _ (Op.joinRoom "s1" "r" "Alice")
      (ReachNR.step _ (Op.connect "s1") ReachNR.init (by decide)) (by decide))
    "r" wRoom1 (by decide)

/-- C4 counterexample: after a rebinding double join the moderator `s1` holds
a room with `membersCount = 2`; its disconnect leaves `membersCount = 1 > 0`
but reassigns `moderatorId` to the empty string — "never empty" fails. -/
theorem C4_counterexample :
    (getRoom (runOps [Op.connect "s1", Op.joinRoom "s1" "r" "A", Op.joinRoom "s1" "r" "A"]).rooms "r").map
        (fun st => (st.membersCount, st.moderatorId)) = some (2, "s1") ∧
    (getRoom (runOps [Op.connect "s1", Op.joinRoom "s1" "r" "A", Op.joinRoom "s1" "r" "A", Op.disconnect "s1"]).rooms "r").map
        (fun st => (st.membersCount, st.moderatorId)) = some (1, "") := by
  decide

/-- C4 (amended): from any state reachable under first-bind joins, when the
session holding `moderatorId` disconnects and the resulting `memberCount` is
still positive, the new `moderatorId` is non-empty, differs from the departed
session, and names a session still connected and bound to that room. -/
theorem C4_moderator_reelection (s : SystemState) (h : ReachNR s) (sid r : String)
    (d : SocketData) (st st' : RoomState)
    (hd : aget s.sockets sid = some d) (hb : d.roomId = some r)
    (hst : getRoom s.rooms r = some st) (hmod : st.moderatorId = sid)
    (hr' : getRoom (applyOp s (Op.disconnect sid)).rooms r = some st')
    (hpos : 0 < st'.membersCount) :
    st'.moderatorId ≠ "" ∧ st'.moderatorId ≠ sid ∧
    ∃ d', aget (applyOp s (Op.disconnect sid)).sockets st'.moderatorId = some d' ∧
      d'.roomId = some r := by
  have hs := Inv_of_ReachNR s h
  have hs' : Inv (applyOp s (Op.disconnect sid)) := Inv_applyOp s (Op.disconnect sid) hs rfl
  obtain ⟨hc', hiff', hmem'⟩ := hs'.room_inv r st' hr'
  have hne : getGroup (applyOp s (Op.disconnect sid)).groups r ≠ [] := by
    intro h2
    rw [hc', h2] at hpos
    simp at hpos
  have hmodne : st'.moderatorId ≠ "" := fun h2 => hne (hiff'.mp h2)
  obtain ⟨d', hd', hb'⟩ := hs'.member_bound r st'.moderatorId (hmem' hne)
  refine ⟨hmodne, ?_, d', hd', hb'⟩
  intro h2
  rw [h2] at hd'
  have hbr : boundRoom s sid = some r := by
    rw [boundRoom, hd]
    exact hb
  have hpost : (applyOp s (Op.disconnect sid)).sockets = aremove s.sockets sid := by
    show (handleDisconnect s sid).1.sockets = _
    rw [handleDisconnect_eq s sid r st hbr hst]
  rw [hpost, aget_aremove_self] at hd'
  cases hd'

/-- The room record after the moderator of `wState2` disconnects. -/
def wRoomPost : RoomState where
  videoId := ""
  time := 0
  playing := false
  membersCount := 1
  moderatorId := "s2"
  queue := []

theorem C4_witness :
    wRoomPost.moderatorId ≠ "" ∧ wRoomPost.moderatorId ≠ "s1" ∧
    ∃ d', aget (applyOp wState2 (Op.disconnect "s1")).sockets wRoomPost.moderatorId = some d' ∧
      d'.roomId = some "r" :=
  C4_moderator_reelection wState2
    (ReachNR.step _ (Op.joinRoom "s2" "r" "Bob")
      (ReachNR.step _ (Op.connect "s2")
        (ReachNR.step _ (Op.joinRoom "s1" "r" "Alice")
          (ReachNR.step _ (Op.connect "s1") ReachNR.init (by decide)) (by decide))
        (by decide)) (by decide))
    "s1" "r" { name := some "Alice", roomId := some "r" } wRoom2 wRoomPost
    (by decide) (by decide) (by decide) (by decide) (by decide) (by decide)

end WatchTogether
